import Mathlib

/-!
# Verification of the cp-notification-server core

A shallow embedding, in Lean 4, of the notification server's core logic:

* the delivery dispatcher (`src/services/pushService.ts`: `isNotificationEnabled`,
  `sendToUser`, `sendNotification`) together with the Mongo-backed subscription
  store (`SubscriptionStore.getMany` / `SubscriptionStore.remove`),
* the amount formatter (`formatAmount` in `subgraphService.ts` / `schedulerService.ts`),
* the recipient resolver (`getCircleMembers`) and the event fan-out handlers
  (`processCircleJoinedEvents`, `processPayoutEvents`),
* the checkpointed polling loop (`queryNewEvents`, `pollAndProcess`),
* the deadline scheduler (`checkGoalDeadlines`, `checkCircleDeadlines`,
  `cleanupSentNotifications`, `calculateProgress`).

External I/O (the GraphQL subgraph, MongoDB, the web-push transport, wall-clock
time) is modelled by explicit environment records passed to the functions;
JavaScript `BigInt` values are modelled by `Nat`, decimal strings by the
executable printer `decChars`/`natToString`, and `.toLowerCase()` by the
executable `lowercase`.  Notification types, preference keys and priorities are the
literal strings the TypeScript code uses.
-/

/-! ## Dispatcher data model (src/types.ts and src/services/subscriptionStore.ts) -/

/-- `String.prototype.toLowerCase()` as an executable character-list map. -/
def lowercase (s : String) : String := String.mk (s.data.map Char.toLower)

/-- Per-user notification preferences: the global `pushEnabled` master switch plus
the per-type boolean flags, an object with optional boolean fields modelled as an
association list (a missing key is an unset preference). -/
structure Preferences where
  pushEnabled : Option Bool
  flags : List (String × Bool)
deriving DecidableEq, Repr

/-- A stored subscription record.  The web-push endpoint/key material is carried
opaquely in `endpoint`; no claim depends on its contents. -/
structure UserSubscription where
  userAddress : String
  endpoint : String
  preferences : Preferences
deriving DecidableEq, Repr

/-- The subscription store (the MongoDB `subscriptions` collection). -/
abbrev Store := List UserSubscription

/-- `SubscriptionStore.getMany`: documents whose `userAddress` is in the
lowercased input list and whose `preferences.pushEnabled` is not `false`
(the Mongo `$ne: false` matcher also accepts a missing field). -/
def SubscriptionStore.getMany (store : Store) (userAddresses : List String) :
    List UserSubscription :=
  if userAddresses = [] then []
  else
    let normalizedAddresses := userAddresses.map lowercase
    store.filter fun s =>
      s.userAddress ∈ normalizedAddresses ∧ s.preferences.pushEnabled ≠ some false

/-- `SubscriptionStore.remove`: `deleteOne` on the lowercased address — the first
matching document is deleted. -/
def SubscriptionStore.remove (store : Store) (userAddress : String) : Store :=
  let normalizedAddress := lowercase userAddress
  match store with
  | [] => []
  | s :: rest =>
    if s.userAddress = normalizedAddress then rest
    else s :: SubscriptionStore.remove rest userAddress

/-- The notification-type enumeration: the 26 members of the `NotificationType`
string union exported by the types module (the second document of
`src/unnamed/part_002`), as the literal strings used by the code. -/
def notificationTypes : List String :=
  [("circle_member_joined"), ("circle_member_payout"), ("circle_member_contributed"),
   ("circle_member_withdrew"), ("circle_started"), ("circle_completed"),
   ("circle_dead"), ("contribution_due"), ("vote_required"), ("vote_executed"),
   ("member_forfeited"), ("late_payment_warning"), ("position_assigned"),
   ("goal_deadline_2days"), ("goal_deadline_1day"), ("goal_completed"),
   ("goal_contribution_due"), ("goal_milestone"), ("circle_invite"),
   ("invite_accepted"), ("payment_received"), ("credit_score_changed"),
   ("withdrawal_fee_applied"), ("collateral_returned"), ("system_maintenance"),
   ("security_alert")]

/-- The exported `NOTIFICATION_PREFERENCE_KEYS` table of the types module (the
second document of `src/unnamed/part_002`, `Record<NotificationType, keyof
NotificationPreferences>`), identical to the inline `preferenceKeyMapping` in
the second copy of `pushService.ts`.  A lookup of a string outside the table
yields `none` (JavaScript `undefined`), which `isNotificationEnabled` treats as
enabled. -/
def NOTIFICATION_PREFERENCE_KEYS : List (String × String) :=
  [(("circle_member_joined"), ("circleMemberJoined")),
   (("circle_member_payout"), ("circleMemberPayout")),
   (("circle_member_contributed"), ("circleMemberContributed")),
   (("circle_member_withdrew"), ("circleMemberWithdrew")),
   (("circle_started"), ("circleStarted")),
   (("circle_completed"), ("circleCompleted")),
   (("circle_dead"), ("circleDead")),
   (("contribution_due"), ("contributionDue")),
   (("vote_required"), ("voteRequired")),
   (("vote_executed"), ("voteExecuted")),
   (("member_forfeited"), ("memberForfeited")),
   (("late_payment_warning"), ("latePaymentWarning")),
   (("position_assigned"), ("positionAssigned")),
   (("goal_deadline_2days"), ("goalDeadline2Days")),
   (("goal_deadline_1day"), ("goalDeadline1Day")),
   (("goal_completed"), ("goalCompleted")),
   (("goal_contribution_due"), ("goalContributionDue")),
   (("goal_milestone"), ("goalMilestone")),
   (("circle_invite"), ("circleInvite")),
   (("invite_accepted"), ("inviteAccepted")),
   (("payment_received"), ("paymentReceived")),
   (("credit_score_changed"), ("creditScoreChanged")),
   (("withdrawal_fee_applied"), ("withdrawalFeeApplied")),
   (("collateral_returned"), ("collateralReturned")),
   (("system_maintenance"), ("systemMaintenance")),
   (("security_alert"), ("securityAlert"))]

/-- A notification payload as built by the fan-out engine and the scheduler
(`title`, `message`, `type`, `priority`; the `action`/`data` routing fields are
not modelled — no claim depends on them). -/
structure NotificationPayload where
  title : String
  message : String
  typ : String
  priority : String
deriving DecidableEq, Repr

/-- `isNotificationEnabled` (pushService.ts): blocked when `pushEnabled` is
explicitly `false`; otherwise the per-type flag blocks only when explicitly
`false`; a type without a table entry, or an unset flag, defaults to enabled. -/
def isNotificationEnabled (preferences : Preferences) (typ : String) : Bool :=
  if preferences.pushEnabled = some false then false
  else
    match NOTIFICATION_PREFERENCE_KEYS.lookup typ with
    | some key => ¬ (preferences.flags.lookup key = some false)
    | none => true

/-- Outcome of one `webpush.sendNotification` transport call: success, or a
rejection carrying an optional HTTP status code and an error message. -/
inductive PushOutcome where
  | ok : PushOutcome
  | err (statusCode : Option Nat) (msg : String) : PushOutcome
deriving DecidableEq, Repr

/-- Result of `sendToUser` for a single recipient. -/
structure SendOne where
  success : Bool
  error : Option String
deriving DecidableEq, Repr

/-- `sendToUser` (pushService.ts): preference gate, then the transport call;
on a rejection with status 404 or 410 the subscription is removed from the
store before the failure result is returned.  `cfg` is the `isConfigured`
flag; `push` gives the transport outcome per user address. -/
def sendToUser (cfg : Bool) (push : String → PushOutcome)
    (subscription : UserSubscription) (payload : NotificationPayload)
    (store : Store) : SendOne × Store :=
  if cfg = false then (⟨false, some ("Push service not configured")⟩, store)
  else if isNotificationEnabled subscription.preferences payload.typ = false then
    (⟨false, some ("Notification type disabled by user")⟩, store)
  else
    match push subscription.userAddress with
    | PushOutcome.ok => (⟨true, none⟩, store)
    | PushOutcome.err statusCode msg =>
      if statusCode = some 404 ∨ statusCode = some 410 then
        (⟨false, some msg⟩, SubscriptionStore.remove store subscription.userAddress)
      else (⟨false, some msg⟩, store)

/-- Aggregated result of `sendNotification`. -/
structure SendResult where
  sent : Nat
  failed : Nat
  errors : List String
deriving DecidableEq, Repr

/-- One step of the `sendNotification` recipient loop: look the address up in
the snapshot list fetched by `getMany`, then call `sendToUser`. -/
def sendStep (cfg : Bool) (push : String → PushOutcome)
    (subscriptions : List UserSubscription) (payload : NotificationPayload)
    (acc : SendResult × Store) (userAddress : String) : SendResult × Store :=
  let (results, store) := acc
  match subscriptions.find? (fun s => lowercase s.userAddress = lowercase userAddress) with
  | none => ({ results with failed := results.failed + 1 }, store)
  | some subscription =>
    let (r, store') := sendToUser cfg push subscription payload store
    if r.success then ({ results with sent := results.sent + 1 }, store')
    else
      ({ results with
          failed := results.failed + 1,
          errors := results.errors ++
            (match r.error with
             | some e => [subscription.userAddress ++ (": ") ++ e]
             | none => []) }, store')

/-- `sendNotification` (pushService.ts): fetch the matching subscriptions once,
then loop over the requested addresses aggregating sent/failed counts and
per-recipient error strings, threading the store (404/410 removals). -/
def sendNotification (cfg : Bool) (push : String → PushOutcome)
    (userAddresses : List String) (payload : NotificationPayload)
    (store : Store) : SendResult × Store :=
  let subscriptions := SubscriptionStore.getMany store userAddresses
  userAddresses.foldl (sendStep cfg push subscriptions payload) (⟨0, 0, []⟩, store)

/-- Specification-side predicate: the recipient `userAddress` of this
`sendNotification` call ends up counted in `sent` (it has a visible
subscription, passes the preference gate, and the transport call succeeds). -/
def sentVia (cfg : Bool) (push : String → PushOutcome)
    (subscriptions : List UserSubscription) (payload : NotificationPayload)
    (userAddress : String) : Bool :=
  match subscriptions.find? (fun s => lowercase s.userAddress = lowercase userAddress) with
  | none => false
  | some s =>
    cfg && isNotificationEnabled s.preferences payload.typ &&
      decide (push s.userAddress = PushOutcome.ok)

/-- The same predicate at the `sendNotification` interface: the snapshot list
is the one `getMany` fetches for this call. -/
def recipientSent (cfg : Bool) (push : String → PushOutcome) (store : Store)
    (userAddresses : List String) (payload : NotificationPayload)
    (userAddress : String) : Bool :=
  sentVia cfg push (SubscriptionStore.getMany store userAddresses) payload userAddress

/-! ## Decimal strings and `formatAmount` -/

/-- The ASCII digit character for `d < 10`. -/
def digitChar (d : Nat) : Char := Char.ofNat (48 + d)

/-- Fuel-indexed big-endian decimal digit list (structural recursion so that
concrete values reduce in the kernel). -/
def decCharsAux : Nat → Nat → List Char
  | 0, _ => []
  | fuel + 1, n =>
    if n < 10 then [digitChar n]
    else decCharsAux fuel (n / 10) ++ [digitChar (n % 10)]

/-- Big-endian decimal digits of `n` (the digits of `BigInt.prototype.toString`
/ `Nat.repr`); `decChars 0 = ['0']`. -/
def decChars (n : Nat) : List Char := decCharsAux (n + 1) n

/-- Decimal string of `n`. -/
def natToString (n : Nat) : String := String.mk (decChars n)

/-- `String.prototype.padStart(k, "0")` on a character list: prepend zeros up
to length `k` (a longer string is returned unchanged). -/
def padZeros (k : Nat) (s : List Char) : List Char :=
  List.replicate (k - s.length) ('0') ++ s

/-- `formatAmount` (subgraphService.ts / schedulerService.ts) on the parsed
`BigInt` value, with the default `decimals = 18`: integer quotient, then the
18-digit zero-padded remainder truncated to its first two characters, rendered
as a currency string. -/
def formatAmountNat (amount : Nat) : String :=
  let divisor := 10 ^ 18
  let whole := amount / divisor
  let fraction := amount % divisor
  let fractionStr := (padZeros 18 (decChars fraction)).take 2
  (("$") ++ natToString whole ++ (".")) ++ String.mk fractionStr

/-- Numeric value of an ASCII decimal digit character. -/
def digitVal? (c : Char) : Option Nat :=
  if ('0') ≤ c ∧ c ≤ ('9') then some (c.toNat - 48) else none

/-- `BigInt(string)` on a decimal-digit string; `none` models the thrown
`SyntaxError` for malformed input.  (The empty string, which `BigInt` maps to
`0`, does not occur in the event data the claims exercise.) -/
def parseDecNat (s : String) : Option Nat :=
  if s.data = [] then none
  else s.data.foldl (fun acc c => acc.bind fun n => (digitVal? c).map fun d => n * 10 + d)
    (some 0)

/-- `formatAmount` on the wire representation: parse the smallest-unit integer
string, then format; `none` models the `BigInt` parse throwing. -/
def formatAmount (amountWei : String) : Option String :=
  (parseDecNat amountWei).map formatAmountNat

/-- Specification-side formatter: divide by `10^18`, truncate the fraction to
two digits with no rounding (`(amount % 10^18) / 10^16`), print the two-digit
fraction zero-padded. -/
def formatAmountSpec (amount : Nat) : String :=
  let whole := amount / 10 ^ 18
  let fracTwo := amount % 10 ^ 18 / 10 ^ 16
  (("$") ++ natToString whole ++ (".")) ++ String.mk (padZeros 2 (decChars fracTwo))

/-- `calculateProgress` (schedulerService.ts): `Number((current*100)/target)`
with a zero-target guard; `BigInt` division truncates. -/
def calculateProgress (current target : Nat) : Nat :=
  if target = 0 then 0 else current * 100 / target

/-! ## Recipient resolver (`getCircleMembers`) -/

/-- The rows the `GetCircleMembers` GraphQL query returns for one circle:
the `user.id` of each `circleJoineds` row (`none` for a row with a missing
user) and the circle creator's id when the `circles` lookup finds one. -/
structure MembersResponse where
  joined : List (Option String)
  creator : Option String
deriving DecidableEq, Repr

/-- `Set.prototype.add` on an insertion-ordered duplicate-free list. -/
def addUnique (l : List String) (s : String) : List String :=
  if s ∈ l then l else l ++ [s]

/-- `getCircleMembers` (subgraphService.ts): `none` models a null client or a
request error (the catch returns `[]`); otherwise every joined row with a
truthy user id is lowercased into a `Set`, then the truthy creator id is
lowercased in as well, and the set is returned as a list. -/
def getCircleMembers (response : Option MembersResponse) : List String :=
  match response with
  | none => []
  | some r =>
    let joinedIds := r.joined.filterMap fun j =>
      match j with
      | some uid => if uid = ("") then none else some (lowercase uid)
      | none => none
    let members := joinedIds.foldl addUnique []
    match r.creator with
    | some c => if c = ("") then members else addUnique members (lowercase c)
    | none => members

/-! ## Event data model (subgraphService.ts interfaces) -/

/-- `TransactionData`. -/
structure TransactionData where
  blockNumber : String
  blockTimestamp : String
  transactionHash : String
deriving DecidableEq, Repr

/-- `UserData`; the whole user object can be absent at runtime, which the
handlers guard with `!event.user?.id`. -/
structure UserData where
  id : String
  username : Option String
  fullName : Option String
deriving DecidableEq, Repr

/-- `CircleJoinedEvent`. -/
structure CircleJoinedEvent where
  id : String
  circleId : String
  user : Option UserData
  currentMembers : String
  circleState : Nat
  transaction : TransactionData
deriving DecidableEq, Repr

/-- `PayoutDistributedEvent`. -/
structure PayoutDistributedEvent where
  id : String
  user : Option UserData
  circleId : String
  round : String
  payoutAmount : String
  transaction : TransactionData
deriving DecidableEq, Repr

/-- `ContributionMadeEvent`. -/
structure ContributionMadeEvent where
  id : String
  user : Option UserData
  circleId : String
  round : String
  amount : String
  transaction : TransactionData
deriving DecidableEq, Repr

/-- `CollateralWithdrawnEvent`. -/
structure CollateralWithdrawnEvent where
  id : String
  user : Option UserData
  circleId : String
  amount : String
  transaction : TransactionData
deriving DecidableEq, Repr

/-- `MemberInvitedEvent`. -/
structure MemberInvitedEvent where
  id : String
  inviter : Option UserData
  invitee : Option UserData
  circleId : String
  invitedAt : String
  transaction : TransactionData
deriving DecidableEq, Repr

/-- `VotingInitiatedEvent`. -/
structure VotingInitiatedEvent where
  id : String
  circleId : String
  votingStartAt : String
  votingEndAt : String
  transaction : TransactionData
deriving DecidableEq, Repr

/-- `VoteExecutedEvent`. -/
structure VoteExecutedEvent where
  id : String
  circleId : String
  circleStarted : Bool
  startVoteTotal : String
  withdrawVoteTotal : String
  withdrawWon : Bool
  transaction : TransactionData
deriving DecidableEq, Repr

/-- `MemberForfeitedEvent`. -/
structure MemberForfeitedEvent where
  id : String
  forfeiter : Option UserData
  forfeitedUser : Option UserData
  circleId : String
  round : String
  deductionAmount : String
  transaction : TransactionData
deriving DecidableEq, Repr

/-- The JavaScript truthiness guard `!event.user?.id`: the user object is
present and its id is a nonempty string. -/
def validUser : Option UserData → Bool
  | some u => u.id ≠ ("")
  | none => false

/-! ## Fan-out handlers -/

/-- The subgraph as the fan-out handlers see it: per circle id, the
`GetCircleMembers` response (`none` = request error / null client) and the
`GetCircle` name lookup result, plus the push-transport configuration. -/
structure FanoutEnv where
  membersResp : String → Option MembersResponse
  circleNameOf : String → Option String
  cfg : Bool
  push : String → PushOutcome

/-- `getCircleName` (subgraphService.ts): `data.circles[0]?.circleName ||
"your circle"`, with the same fallback on error. -/
def getCircleName (nameResult : Option String) : String :=
  match nameResult with
  | some n => if n = ("") then ("your circle") else n
  | none => ("your circle")

/-- One dispatcher call recorded by a fan-out handler: the recipients, the
payload, and the aggregated result `sendNotification` returned. -/
structure FanoutDispatch where
  recipients : List String
  payload : NotificationPayload
  result : SendResult
deriving DecidableEq, Repr

/-- `processCircleJoinedEvents` (subgraphService.ts) for one event: guard on
the acting user, resolve the members, exclude the joiner case-insensitively,
and dispatch the `circle_member_joined` broadcast when anyone is left.
Returns the dispatch trace and the threaded subscription store. -/
def processCircleJoinedEvent (env : FanoutEnv) (event : CircleJoinedEvent)
    (store : Store) : List FanoutDispatch × Store :=
  match event.user with
  | none => ([], store)
  | some user =>
    if user.id = ("") then ([], store)
    else
      let members := getCircleMembers (env.membersResp event.circleId)
      let membersToNotify := members.filter fun m => lowercase m ≠ lowercase user.id
      if membersToNotify = [] then ([], store)
      else
        let userName := user.username.getD ("Someone")
        let circleName := getCircleName (env.circleNameOf event.circleId)
        let payload : NotificationPayload :=
          { title := ("New Member Joined 👋"),
            message := userName ++ (" joined \"") ++ circleName ++ ("\""),
            typ := ("circle_member_joined"),
            priority := ("high") }
        let (results, store') := sendNotification env.cfg env.push membersToNotify payload store
        ([⟨membersToNotify, payload, results⟩], store')

/-- `processCircleJoinedEvents` over an event list. -/
def processCircleJoinedEvents (env : FanoutEnv) (events : List CircleJoinedEvent)
    (store : Store) : List FanoutDispatch × Store :=
  events.foldl
    (fun acc event =>
      let (trace, store') := processCircleJoinedEvent env event acc.2
      (acc.1 ++ trace, store'))
    ([], store)

/-- `processPayoutEvents` (src/services/subgraphService.ts) for one event:
guard on the recipient, notify the recipient (`payment_received`, high),
then resolve members, exclude the recipient case-insensitively and dispatch
the `circle_member_payout` broadcast.  `none` models the `BigInt` parse of a
malformed `payoutAmount` throwing out of the handler. -/
def processPayoutEvent (env : FanoutEnv) (event : PayoutDistributedEvent)
    (store : Store) : Option (List FanoutDispatch × Store) :=
  match event.user with
  | none => some ([], store)
  | some user =>
    if user.id = ("") then some ([], store)
    else
      (parseDecNat event.payoutAmount).map fun amountValue =>
        let amount := formatAmountNat amountValue
        let payload1 : NotificationPayload :=
          { title := ("Payment Received! 💰"),
            message := ("You received ") ++ amount ++
              (" from your circle payout (Round ") ++ event.round ++ (")"),
            typ := ("payment_received"),
            priority := ("high") }
        let (results1, store1) := sendNotification env.cfg env.push [user.id] payload1 store
        let members := getCircleMembers (env.membersResp event.circleId)
        let othersToNotify := members.filter fun m => lowercase m ≠ lowercase user.id
        if othersToNotify = [] then ([⟨[user.id], payload1, results1⟩], store1)
        else
          let recipientName := user.username.getD ("A member")
          let payload2 : NotificationPayload :=
            { title := ("Circle Payout Completed"),
              message := recipientName ++ (" received their payout of ") ++ amount,
              typ := ("circle_member_payout"),
              priority := ("high") }
          let (results2, store2) := sendNotification env.cfg env.push othersToNotify payload2 store1
          ([⟨[user.id], payload1, results1⟩, ⟨othersToNotify, payload2, results2⟩], store2)

/-- `processPayoutEvents` over an event list; a throwing event aborts the loop
(`none`), matching the absent per-event try/catch in this handler. -/
def processPayoutEvents (env : FanoutEnv) (events : List PayoutDistributedEvent)
    (store : Store) : Option (List FanoutDispatch × Store) :=
  match events with
  | [] => some ([], store)
  | event :: rest =>
    match processPayoutEvent env event store with
    | none => none
    | some (trace, store') =>
      (processPayoutEvents env rest store').map fun (traceRest, store'') =>
        (trace ++ traceRest, store'')

/-- `processPayoutEvents` in the unnamed duplicate of the subgraph service
(src/unnamed/part_001) for one event: the recipient address is lowercased,
the members are fetched before the first dispatch, the recipient notification
has type `circle_payout` and mentions the circle name, and the broadcast to
the other members is sent at `medium` priority. -/
def processPayoutEventAlt (env : FanoutEnv) (event : PayoutDistributedEvent)
    (store : Store) : Option (List FanoutDispatch × Store) :=
  match event.user with
  | none => some ([], store)
  | some user =>
    if user.id = ("") then some ([], store)
    else
      (parseDecNat event.payoutAmount).map fun amountValue =>
        let amount := formatAmountNat amountValue
        let members := getCircleMembers (env.membersResp event.circleId)
        let recipientAddress := lowercase user.id
        let circleName := getCircleName (env.circleNameOf event.circleId)
        let payload1 : NotificationPayload :=
          { title := ("Payment Received! 💰"),
            message := ("You received ") ++ amount ++ (" from \"") ++ circleName ++
              ("\" payout (Round ") ++ event.round ++ (")"),
            typ := ("circle_payout"),
            priority := ("high") }
        let (results1, store1) := sendNotification env.cfg env.push [recipientAddress] payload1 store
        let othersToNotify := members.filter fun m => lowercase m ≠ recipientAddress
        if othersToNotify = [] then ([⟨[recipientAddress], payload1, results1⟩], store1)
        else
          let recipientName := user.username.getD ("A member")
          let payload2 : NotificationPayload :=
            { title := ("Circle Payout Completed"),
              message := recipientName ++ (" received their payout of ") ++ amount ++
                (" for \"") ++ circleName ++ ("\" circle (Round ") ++ event.round ++ (")"),
              typ := ("circle_member_payout"),
              priority := ("medium") }
          let (results2, store2) := sendNotification env.cfg env.push othersToNotify payload2 store1
          ([⟨[recipientAddress], payload1, results1⟩, ⟨othersToNotify, payload2, results2⟩], store2)

/-! ## Polling loop (`queryNewEvents`, `pollAndProcess`) -/

/-- The batch of event lists one `GetNewEvents` query returns. -/
structure EventBatch where
  circleJoineds : List CircleJoinedEvent
  payoutDistributeds : List PayoutDistributedEvent
  contributionMades : List ContributionMadeEvent
  collateralWithdrawns : List CollateralWithdrawnEvent
  memberInviteds : List MemberInvitedEvent
  votingInitiateds : List VotingInitiatedEvent
  voteExecuteds : List VoteExecutedEvent
  memberForfeiteds : List MemberForfeitedEvent
deriving DecidableEq, Repr

/-- The empty batch `queryNewEvents` substitutes on a null client or a query
error. -/
def EventBatch.empty : EventBatch := ⟨[], [], [], [], [], [], [], []⟩

/-- Whether the batch makes any per-type handler run at all (each handler is
invoked only under a `length > 0` check). -/
def EventBatch.nonempty (b : EventBatch) : Bool :=
  b.circleJoineds ≠ [] ∨ b.payoutDistributeds ≠ [] ∨ b.contributionMades ≠ [] ∨
    b.collateralWithdrawns ≠ [] ∨ b.memberInviteds ≠ [] ∨ b.votingInitiateds ≠ [] ∨
    b.voteExecuteds ≠ [] ∨ b.memberForfeiteds ≠ []

/-- The module-level mutable state of the subgraph service: the in-memory
cursor `lastProcessedTimestamp` (0 = unset, as in the TypeScript initializer),
the durably persisted cursor (the `SystemState` row, `none` = absent), and the
`isPolling` in-flight flag. -/
structure PollerState where
  lastProcessedTimestamp : Nat
  persisted : Option Nat
  isPolling : Bool
deriving DecidableEq, Repr

/-- One poll cycle's external world: whether the GraphQL client was
initialized, the `SystemState.findOne` result, the wall clock, whether the
`GetNewEvents` request rejects, the batch and `_meta` block timestamp it would
deliver, and oracles for the two exception sources inside the `try` block —
an unhandled throw while processing the batch (e.g. a malformed `BigInt`
string) and a throw from the `SystemState.updateOne` persist. -/
structure PollEnv where
  clientInit : Bool
  dbTimestamp : Option Nat
  now : Nat
  queryFails : Bool
  batch : EventBatch
  metaTimestamp : Option Nat
  procThrows : Bool
  persistThrows : Bool

/-- `queryNewEvents` (subgraphService.ts): a null client or a caught request
error yields the empty batch with `latestTimestamp` pinned to the current
cursor — the error does NOT propagate; otherwise the batch is returned with
`data._meta?.block?.timestamp || lastProcessedTimestamp` (the JavaScript `||`
also replaces a zero timestamp). -/
def queryNewEvents (env : PollEnv) (lastProcessedTimestamp : Nat) : EventBatch × Nat :=
  if env.clientInit = false then (EventBatch.empty, lastProcessedTimestamp)
  else if env.queryFails then (EventBatch.empty, lastProcessedTimestamp)
  else
    let latest :=
      match env.metaTimestamp with
      | some t => if t = 0 then lastProcessedTimestamp else t
      | none => lastProcessedTimestamp
    (env.batch, latest)

/-- `pollAndProcess` (subgraphService.ts).  Returns the successor state and
`some delayMs` when the catch block scheduled a retry (`setTimeout` with
`2^retryCount * 1000`), `none` otherwise.

Faithfulness notes, keyed to the source:
* the entry guard returns before touching `isPolling`;
* on the first run (`!lastProcessedTimestamp`) the cursor is loaded from the
  `SystemState` row when it holds a positive number, otherwise initialized to
  the wall clock and persisted, and the cycle ends without processing;
* the handlers never write the cursor, so batch processing is abstracted by
  its only observable effect on this state — whether it throws
  (`env.procThrows`, relevant only when some handler actually runs);
* the in-memory cursor is assigned BEFORE `SystemState.updateOne`, so a
  throwing persist leaves the memory cursor advanced but the durable row
  unchanged;
* the `finally` clause runs even on the `return` inside the catch block, so
  `isPolling` is `false` in every returned state — including the one in which
  a retry has just been scheduled, despite the comment "Don't reset isPolling
  here, let the timeout do it". -/
def pollAndProcess (state : PollerState) (env : PollEnv) (retryCount : Nat) :
    PollerState × Option Nat :=
  if env.clientInit = false ∨ state.isPolling then (state, none)
  else
    let retry : Option Nat := if retryCount < 3 then some (2 ^ retryCount * 1000) else none
    if state.lastProcessedTimestamp = 0 then
      -- `state && typeof state.value === "number" && state.value > 0`:
      -- an absent row and a non-positive value coincide on `getD 0 > 0`.
      if env.dbTimestamp.getD 0 > 0 then
        ({ lastProcessedTimestamp := env.dbTimestamp.getD 0, persisted := state.persisted,
           isPolling := false }, none)
      else if env.persistThrows then
        ({ lastProcessedTimestamp := env.now, persisted := state.persisted,
           isPolling := false }, retry)
      else
        ({ lastProcessedTimestamp := env.now, persisted := some env.now,
           isPolling := false }, none)
    else
      let events := queryNewEvents env state.lastProcessedTimestamp
      if events.1.nonempty ∧ env.procThrows then
        ({ lastProcessedTimestamp := state.lastProcessedTimestamp,
           persisted := state.persisted, isPolling := false }, retry)
      else if events.2 > state.lastProcessedTimestamp then
        if env.persistThrows then
          ({ lastProcessedTimestamp := events.2, persisted := state.persisted,
             isPolling := false }, retry)
        else
          ({ lastProcessedTimestamp := events.2, persisted := some events.2,
             isPolling := false }, none)
      else
        ({ lastProcessedTimestamp := state.lastProcessedTimestamp,
           persisted := state.persisted, isPolling := false }, none)

/-! ## Deadline scheduler (schedulerService.ts) -/

/-- `PersonalGoal` as the `GetActiveGoals` query returns it, with the numeric
fields already parsed (`deadline` via `parseInt`, the amounts via `BigInt`). -/
structure PersonalGoal where
  id : String
  goalId : String
  goalName : String
  goalAmount : Nat
  currentAmount : Nat
  deadline : Int
  userId : String
deriving DecidableEq, Repr

/-- `SubgraphCircle` as the `GetActiveCircles` (`state: 3`) query returns it;
`nextDeadline` is `none` for a missing/falsy field and `some` of the parsed
timestamp otherwise. -/
structure SubgraphCircle where
  id : String
  circleId : String
  circleName : String
  currentRound : String
  nextDeadline : Option Int
  contributionAmount : String
deriving DecidableEq, Repr

/-- One guarded notification site of the scheduler: a statically evaluated
condition, the dedup key, and the recipients/payload dispatched when the
condition holds and the key is not yet registered. -/
structure CondInst where
  cond : Bool
  key : String
  recipients : List String
  payload : NotificationPayload
deriving DecidableEq, Repr

/-- One dispatch the scheduler performed: the dedup key of the site, the
recipients, the payload, and the `sendNotification` result. -/
structure SchedDispatch where
  key : String
  recipients : List String
  payload : NotificationPayload
  result : SendResult
deriving DecidableEq, Repr

/-- `sentNotifications.add` on the insertion-ordered key set. -/
def addKey (keys : List String) (k : String) : List String :=
  if k ∈ keys then keys else k :: keys

/-- Run a list of guarded notification sites in order: each site whose
condition holds and whose dedup key is absent dispatches via
`sendNotification` and registers its key immediately, before the next site is
examined. -/
def runConds (cfg : Bool) (push : String → PushOutcome) (keys : List String)
    (store : Store) : List CondInst → List String × Store × List SchedDispatch
  | [] => (keys, store, [])
  | inst :: rest =>
    if inst.cond ∧ inst.key ∉ keys then
      let sent := sendNotification cfg push inst.recipients inst.payload store
      let next := runConds cfg push (addKey keys inst.key) sent.2 rest
      (next.1, next.2.1, ⟨inst.key, inst.recipients, inst.payload, sent.1⟩ :: next.2.2)
    else runConds cfg push keys store rest

/-- The remaining seconds until a goal's deadline. -/
def timeUntilDeadline (goal : PersonalGoal) (now : Int) : Int := goal.deadline - now

/-- The ≤2-day reminder site (`daysUntilDeadline ≤ 2 ∧ > 1`, expressed on the
exact second count: `(d-now)/86400 ≤ 2 ↔ d-now ≤ 172800`). -/
def inst2days (goal : PersonalGoal) (now : Int) : CondInst :=
  let t := timeUntilDeadline goal now
  let progress := calculateProgress goal.currentAmount goal.goalAmount
  let remaining := formatAmountNat (goal.goalAmount - goal.currentAmount)
  { cond := t ≤ 172800 ∧ t > 86400,
    key := ("goal_2days_") ++ goal.id,
    recipients := [goal.userId],
    payload :=
      { title := ("Goal Deadline Approaching ⏰"),
        message := ("Your \"") ++ goal.goalName ++ ("\" goal deadline is in 2 days! ") ++
          natToString progress ++ ("% complete, ") ++ remaining ++ (" remaining."),
        typ := ("goal_deadline_2days"),
        priority := ("medium") } }

/-- The ≤1-day reminder site. -/
def inst1day (goal : PersonalGoal) (now : Int) : CondInst :=
  let t := timeUntilDeadline goal now
  let progress := calculateProgress goal.currentAmount goal.goalAmount
  let remaining := formatAmountNat (goal.goalAmount - goal.currentAmount)
  { cond := t ≤ 86400 ∧ t > 0,
    key := ("goal_1day_") ++ goal.id,
    recipients := [goal.userId],
    payload :=
      { title := ("Goal Deadline Tomorrow! ⚡"),
        message := ("Your \"") ++ goal.goalName ++ ("\" goal deadline is tomorrow! ") ++
          natToString progress ++ ("% complete, ") ++ remaining ++ (" remaining."),
        typ := ("goal_deadline_1day"),
        priority := ("high") } }

/-- One milestone-band site (`progress ≥ m ∧ progress < m+5`). -/
def instMilestone (goal : PersonalGoal) (milestone : Nat) : CondInst :=
  let progress := calculateProgress goal.currentAmount goal.goalAmount
  { cond := progress ≥ milestone ∧ progress < milestone + 5,
    key := ("goal_milestone_") ++ goal.id ++ ("_") ++ natToString milestone,
    recipients := [goal.userId],
    payload :=
      { title := ("Goal Milestone Reached! 🎯"),
        message := ("You've reached ") ++ natToString milestone ++
          ("% of your \"") ++ goal.goalName ++ ("\" goal!"),
        typ := ("goal_milestone"),
        priority := ("low") } }

/-- The completion-notice site (`progress ≥ 100`). -/
def instCompleted (goal : PersonalGoal) : CondInst :=
  let progress := calculateProgress goal.currentAmount goal.goalAmount
  { cond := progress ≥ 100,
    key := ("goal_completed_") ++ goal.id,
    recipients := [goal.userId],
    payload :=
      { title := ("Goal Completed! 🎉"),
        message := ("Congratulations! You've completed your \"") ++ goal.goalName ++
          ("\" goal!"),
        typ := ("goal_completed"),
        priority := ("medium") } }

/-- The six guarded notification sites `checkGoalDeadlines` evaluates for one
goal, in source order: the ≤2-day reminder, the ≤1-day reminder, the 25/50/75%
milestone band checks, and the completion notice. -/
def goalConditions (goal : PersonalGoal) (now : Int) : List CondInst :=
  [inst2days goal now, inst1day goal now, instMilestone goal 25,
   instMilestone goal 50, instMilestone goal 75, instCompleted goal]

/-- `checkGoalDeadlines` (schedulerService.ts): evaluate the sites of every
active goal in order against the shared dedup registry, threading the
subscription store. -/
def checkGoalDeadlines (cfg : Bool) (push : String → PushOutcome)
    (goals : List PersonalGoal) (now : Int) (keys : List String) (store : Store) :
    List String × Store × List SchedDispatch :=
  runConds cfg push keys store (goals.flatMap fun g => goalConditions g now)

/-- The batched data `checkCircleDeadlines` fetches: all `circleJoineds`
memberships as (circleId, userId) pairs and all `contributionMades` as
(circleId, round, userId) triples. -/
structure CircleBatchData where
  members : List (String × String)
  contributions : List (String × String × String)
deriving DecidableEq, Repr

/-- Whether a circle's deadline lies within the next 24 hours
(`hoursUntilDeadline ≤ 24 ∧ > 0`, exactly `0 < d-now ≤ 86400` in seconds). -/
def circleInWindow (circle : SubgraphCircle) (now : Int) : Bool :=
  match circle.nextDeadline with
  | some d => d - now ≤ 86400 ∧ d - now > 0
  | none => false

/-- The members of a circle who have not contributed in its current round,
looked up in the batched data (insertion order preserved, as the `Map` of
lists in the source preserves it). -/
def pendingMembers (data : CircleBatchData) (circle : SubgraphCircle) : List String :=
  let memberAddresses := (data.members.filter fun m => m.1 = circle.circleId).map Prod.snd
  let contributed := (data.contributions.filter fun c =>
    c.1 = circle.circleId ∧ c.2.1 = circle.currentRound).map fun c => c.2.2
  memberAddresses.filter fun addr => addr ∉ contributed

/-- The guarded notification site for one in-window circle: skipped entirely
when nobody is pending; escalated to the `late_payment_warning` type/key at
high priority within the final hour, otherwise the `contribution_due`
reminder at medium priority. -/
def circleCondition (data : CircleBatchData) (now : Int) (circle : SubgraphCircle) :
    Option CondInst :=
  let pending := pendingMembers data circle
  if pending = [] then none
  else
    let deadlineSecs : Int := (circle.nextDeadline.getD 0) - now
    let isFinalWarning := deadlineSecs ≤ 3600
    let notificationType := if isFinalWarning then ("late_payment_warning") else ("contribution_due")
    let timeStr := if isFinalWarning then ("less than 1 hour") else ("24 hours")
    some
      { cond := true,
        key := ("circle_") ++ notificationType ++ ("_") ++ circle.id ++ ("_") ++ circle.currentRound,
        recipients := pending,
        payload :=
          { title := if isFinalWarning then ("Urgent: Circle Payment Due! ⚡")
              else ("Circle Contribution Reminder ⏰"),
            message := ("Your payment for \"") ++ circle.circleName ++ ("\" is due in ") ++
              timeStr ++ (". Pay now to avoid credit score loss!"),
            typ := notificationType,
            priority := if isFinalWarning then ("high") else ("medium") } }

/-- `checkCircleDeadlines` (schedulerService.ts): `none` for `circlesData`
models the outer catch (a failed query changes nothing); otherwise the
in-window circles are processed in order against the shared dedup registry. -/
def checkCircleDeadlines (cfg : Bool) (push : String → PushOutcome)
    (circlesData : Option (List SubgraphCircle × CircleBatchData)) (now : Int)
    (keys : List String) (store : Store) :
    List String × Store × List SchedDispatch :=
  match circlesData with
  | none => (keys, store, [])
  | some (circles, data) =>
    let activeCirclesWithDeadlines := circles.filter fun c => circleInWindow c now
    runConds cfg push keys store
      (activeCirclesWithDeadlines.filterMap (circleCondition data now))

/-- `cleanupSentNotifications` (schedulerService.ts): the weekly wholesale
clear of the dedup registry. -/
def cleanupSentNotifications (_keys : List String) : List String := []

/-- The number of dispatches in a scheduler trace that used the dedup key `k`. -/
def countKey (trace : List SchedDispatch) (k : String) : Nat :=
  (trace.filter fun d => d.key = k).length

/-! ## Lemmas about the decimal printer -/

theorem decCharsAux_eq (f₁ : Nat) : ∀ (f₂ n : Nat), n < f₁ → n < f₂ →
    decCharsAux f₁ n = decCharsAux f₂ n := by
  induction f₁ with
  | zero => intro f₂ n h₁ _; omega
  | succ g ih =>
    intro f₂ n h₁ h₂
    cases f₂ with
    | zero => omega
    | succ h =>
      simp only [decCharsAux]
      by_cases hn : n < 10
      · simp [hn]
      · have hd : n / 10 < n := Nat.div_lt_self (by omega) (by norm_num)
        simp only [hn, if_false]
        rw [ih h (n / 10) (by omega) (by omega)]

theorem decChars_of_lt {n : Nat} (h : n < 10) : decChars n = [digitChar n] := by
  simp [decChars, decCharsAux, h]

theorem decChars_of_ge {n : Nat} (h : 10 ≤ n) :
    decChars n = decChars (n / 10) ++ [digitChar (n % 10)] := by
  have hd : n / 10 < n := Nat.div_lt_self (by omega) (by norm_num)
  show decCharsAux (n + 1) n = decCharsAux (n / 10 + 1) (n / 10) ++ [digitChar (n % 10)]
  rw [show decCharsAux (n + 1) n =
        if n < 10 then [digitChar n]
        else decCharsAux n (n / 10) ++ [digitChar (n % 10)] from rfl]
  rw [if_neg (by omega), decCharsAux_eq n (n / 10 + 1) (n / 10) (by omega) (by omega)]

theorem decChars_length_pos (n : Nat) : 1 ≤ (decChars n).length := by
  by_cases h : n < 10
  · simp [decChars_of_lt h]
  · rw [decChars_of_ge (by omega)]
    simp

theorem decChars_length_le : ∀ (k n : Nat), n < 10 ^ (k + 1) →
    (decChars n).length ≤ k + 1 := by
  intro k
  induction k with
  | zero =>
    intro n h
    rw [decChars_of_lt (by simpa using h)]
    simp
  | succ k ih =>
    intro n h
    by_cases hn : n < 10
    · rw [decChars_of_lt hn]; simp
    · rw [decChars_of_ge (by omega)]
      have hq : n / 10 < 10 ^ (k + 1) := by
        rw [Nat.div_lt_iff_lt_mul (by norm_num)]
        calc n < 10 ^ (k + 2) := h
        _ = 10 ^ (k + 1) * 10 := by ring
      have := ih (n / 10) hq
      simp only [List.length_append, List.length_singleton]
      omega

theorem padZeros_length {k : Nat} {s : List Char} (h : s.length ≤ k) :
    (padZeros k s).length = k := by
  simp only [padZeros, List.length_append, List.length_replicate]
  omega

theorem digitChar_zero : digitChar 0 = ('0') := by decide

theorem padZeros_succ_decChars {k r : Nat} (hk : 1 ≤ k) (_hr : r < 10 ^ (k + 1)) :
    padZeros (k + 1) (decChars r) =
      padZeros k (decChars (r / 10)) ++ [digitChar (r % 10)] := by
  by_cases hr10 : r < 10
  · have hq : r / 10 = 0 := Nat.div_eq_of_lt hr10
    have hm : r % 10 = r := Nat.mod_eq_of_lt hr10
    rw [decChars_of_lt hr10, hq, decChars_of_lt (by norm_num : (0:Nat) < 10), hm]
    simp only [padZeros, List.length_singleton, digitChar_zero]
    have h1 : k + 1 - 1 = k := by omega
    have h2 : k - 1 + 1 = k := by omega
    rw [h1, List.append_assoc]
    have : ([('0')] : List Char) ++ [digitChar r] = ('0') :: [digitChar r] := rfl
    rw [this]
    have hrep : List.replicate k ('0') = List.replicate (k - 1) ('0') ++ [('0')] := by
      conv_lhs => rw [← h2, List.replicate_succ']
    rw [hrep, List.append_assoc]
    rfl
  · rw [decChars_of_ge (by omega)]
    simp only [padZeros, List.length_append, List.length_singleton]
    have : k + 1 - ((decChars (r / 10)).length + 1) = k - (decChars (r / 10)).length := by omega
    rw [this, List.append_assoc]

theorem decChars_append : ∀ (k q r : Nat), 1 ≤ k → 0 < q → r < 10 ^ k →
    decChars (q * 10 ^ k + r) = decChars q ++ padZeros k (decChars r) := by
  intro k
  induction k with
  | zero => intro q r h; omega
  | succ k ih =>
    intro q r _ hq hr
    by_cases hk : k = 0
    · subst hk
      have hr10 : r < 10 := by simpa using hr
      have hm : q * 10 ^ 1 + r ≥ 10 := by
        have : q * 10 ^ 1 ≥ 10 := by simpa using Nat.mul_le_mul_right 10 hq
        omega
      rw [decChars_of_ge hm]
      have hdiv : (q * 10 ^ 1 + r) / 10 = q := by
        have : q * 10 ^ 1 + r = 10 * q + r := by ring
        rw [this, Nat.mul_add_div (by norm_num), Nat.div_eq_of_lt hr10]
        omega
      have hmod : (q * 10 ^ 1 + r) % 10 = r := by
        have : q * 10 ^ 1 + r = 10 * q + r := by ring
        rw [this, Nat.mul_add_mod, Nat.mod_eq_of_lt hr10]
      rw [hdiv, hmod, decChars_of_lt hr10]
      simp [padZeros]
    · have hk1 : 1 ≤ k := by omega
      have hm : q * 10 ^ (k + 1) + r ≥ 10 := by
        have h10 : (10:Nat) ≤ 10 ^ (k + 1) := by
          calc (10:Nat) = 10 ^ 1 := by norm_num
          _ ≤ 10 ^ (k + 1) := Nat.pow_le_pow_right (by norm_num) (by omega)
        have : q * 10 ^ (k + 1) ≥ 10 ^ (k + 1) := by
          simpa using Nat.mul_le_mul_right (10 ^ (k + 1)) hq
        omega
      rw [decChars_of_ge hm]
      have split : q * 10 ^ (k + 1) + r = 10 * (q * 10 ^ k) + r := by ring
      have hdiv : (q * 10 ^ (k + 1) + r) / 10 = q * 10 ^ k + r / 10 := by
        rw [split, Nat.mul_add_div (by norm_num)]
      have hmod : (q * 10 ^ (k + 1) + r) % 10 = r % 10 := by
        rw [split, Nat.mul_add_mod]
      have hrdiv : r / 10 < 10 ^ k := by
        rw [Nat.div_lt_iff_lt_mul (by norm_num)]
        calc r < 10 ^ (k + 1) := hr
        _ = 10 ^ k * 10 := by ring
      rw [hdiv, hmod, ih q (r / 10) hk1 hq hrdiv,
        padZeros_succ_decChars hk1 hr, List.append_assoc]

theorem take_two_padZeros {f : Nat} (hf : f < 10 ^ 18) :
    (padZeros 18 (decChars f)).take 2 = padZeros 2 (decChars (f / 10 ^ 16)) := by
  by_cases hq : f / 10 ^ 16 = 0
  · have hflt : f < 10 ^ 16 := by
      by_contra hge
      have := Nat.div_pos (Nat.le_of_not_lt hge) (by positivity)
      omega
    have hlen : (decChars f).length ≤ 16 :=
      decChars_length_le 15 f (by norm_num at hflt ⊢; omega)
    have h2 : 2 ≤ 18 - (decChars f).length := by omega
    rw [hq]
    simp only [padZeros, List.take_append_eq_append_take, List.take_replicate,
      List.length_replicate]
    rw [min_eq_left h2]
    have : 2 - (18 - (decChars f).length) = 0 := by omega
    rw [this, List.take_zero, List.append_nil]
    rw [decChars_of_lt (by norm_num : (0:Nat) < 10), digitChar_zero]
    decide
  · have hqpos : 0 < f / 10 ^ 16 := Nat.pos_of_ne_zero hq
    set q := f / 10 ^ 16 with hq_def
    set r := f % 10 ^ 16 with hr_def
    have hsplit : f = q * 10 ^ 16 + r := by
      rw [hq_def, hr_def, Nat.mul_comm]
      exact (Nat.div_add_mod f (10 ^ 16)).symm
    have hr : r < 10 ^ 16 := Nat.mod_lt f (by positivity)
    have hq100 : q < 100 := by
      rw [hq_def, Nat.div_lt_iff_lt_mul (by positivity)]
      calc f < 10 ^ 18 := hf
      _ = 100 * 10 ^ 16 := by norm_num
    have hlenq : (decChars q).length ≤ 2 :=
      decChars_length_le 1 q (by norm_num; omega)
    have hlenr : (decChars r).length ≤ 16 :=
      decChars_length_le 15 r (by norm_num at hr ⊢; omega)
    have happ : decChars f = decChars q ++ padZeros 16 (decChars r) := by
      conv_lhs => rw [hsplit]
      exact decChars_append 16 q r (by norm_num) hqpos hr
    set B := padZeros 16 (decChars r) with hB
    have hlen16 : B.length = 16 := padZeros_length hlenr
    rw [happ]
    have harr : padZeros 18 (decChars q ++ B) =
        (List.replicate (2 - (decChars q).length) ('0') ++ decChars q) ++ B := by
      simp only [padZeros, List.length_append, hlen16]
      rw [List.append_assoc]
      congr 2
      omega
    have hlenA : (List.replicate (2 - (decChars q).length) ('0') ++ decChars q).length = 2 := by
      simp only [List.length_append, List.length_replicate]
      omega
    rw [harr, List.take_left' hlenA]
    rfl

theorem formatAmountNat_eq_spec (n : Nat) : formatAmountNat n = formatAmountSpec n := by
  unfold formatAmountNat formatAmountSpec
  have h := take_two_padZeros (Nat.mod_lt n (show 0 < 10 ^ 18 by positivity))
  simp only [h]

/-! ## Claim theorems -/

/-- C9: `formatAmount` converts a smallest-unit integer string by exact
fixed-point arithmetic — divide by `10^18`, truncate the fractional part to
two digits with no rounding — and formats the result as a currency string;
in particular `formatAmount("1500000000000000000")` with 18 decimals returns
`"$1.50"` and `formatAmount("0")` returns `"$0.00"`. -/
theorem formatAmount_fixed_point :
    (∀ n : Nat, formatAmountNat n = formatAmountSpec n) ∧
    formatAmount ("1500000000000000000") = some ("$1.50") ∧
    formatAmount ("0") = some ("$0.00") :=
  ⟨formatAmountNat_eq_spec, by decide, by decide⟩

/-- C10: when the push transport rejects with HTTP status 404 or 410,
`sendToUser` removes that user's subscription from the store before returning
the failure result; a rejection with any other status code leaves the store
unchanged (as do the success, the not-configured and the preference-blocked
paths). -/
theorem sendToUser_prunes_on_gone (cfg : Bool) (push : String → PushOutcome)
    (sub : UserSubscription) (payload : NotificationPayload) (store : Store) :
    (∀ sc msg, cfg = true → isNotificationEnabled sub.preferences payload.typ = true →
      push sub.userAddress = PushOutcome.err sc msg →
      (sendToUser cfg push sub payload store).1.success = false ∧
      ((sc = some 404 ∨ sc = some 410) →
        (sendToUser cfg push sub payload store).2 =
          SubscriptionStore.remove store sub.userAddress) ∧
      (¬ (sc = some 404 ∨ sc = some 410) →
        (sendToUser cfg push sub payload store).2 = store)) ∧
    ((push sub.userAddress = PushOutcome.ok ∨ cfg = false ∨
        isNotificationEnabled sub.preferences payload.typ = false) →
      (sendToUser cfg push sub payload store).2 = store) := by
  constructor
  · intro sc msg hcfg hen hpush
    refine ⟨?_, ?_, ?_⟩
    · simp [sendToUser, hcfg, hen, hpush]
      by_cases h404 : sc = some 404 ∨ sc = some 410 <;> simp [h404]
    · intro h404
      simp [sendToUser, hcfg, hen, hpush, h404]
    · intro h404
      simp [sendToUser, hcfg, hen, hpush, h404]
  · intro h
    rcases h with hok | hcfg | hen
    · by_cases hcfg : cfg = false
      · simp [sendToUser, hcfg]
      · have hcfg' : cfg = true := by
          cases cfg
          · exact absurd rfl hcfg
          · rfl
        by_cases hen : isNotificationEnabled sub.preferences payload.typ = false
        · simp [sendToUser, hcfg', hen]
        · have hen' : isNotificationEnabled sub.preferences payload.typ = true := by
            cases h : isNotificationEnabled sub.preferences payload.typ
            · exact absurd h hen
            · rfl
          simp [sendToUser, hcfg', hen', hok]
    · simp [sendToUser, hcfg]
    · by_cases hcfg : cfg = false
      · simp [sendToUser, hcfg]
      · have hcfg' : cfg = true := by
          cases cfg
          · exact absurd rfl hcfg
          · rfl
        simp [sendToUser, hcfg', hen]

/-- A sample subscription record with all preferences unset. -/
def sampleSub : UserSubscription :=
  { userAddress := ("0xabc"), endpoint := ("endpoint-1"),
    preferences := { pushEnabled := none, flags := [] } }

/-- A sample payload of type `payment_received`. -/
def samplePayload : NotificationPayload :=
  { title := ("t"), message := ("m"), typ := ("payment_received"),
    priority := ("high") }

/-- Witness for C10: a 410 rejection removes the stored subscription (the
store becomes empty), while a 500 rejection leaves it in place. -/
theorem sendToUser_prunes_on_gone_witness :
    (sendToUser true (fun _ => PushOutcome.err (some 410) ("gone")) sampleSub
        samplePayload [sampleSub]).2 = ([] : Store) ∧
    (sendToUser true (fun _ => PushOutcome.err (some 500) ("boom")) sampleSub
        samplePayload [sampleSub]).2 = [sampleSub] := by
  constructor
  · have h := (sendToUser_prunes_on_gone true
      (fun _ => PushOutcome.err (some 410) ("gone")) sampleSub samplePayload
      [sampleSub]).1 (some 410) ("gone") rfl (by decide) rfl
    rw [(h.2.1 (Or.inr rfl))]
    decide
  · have h := (sendToUser_prunes_on_gone true
      (fun _ => PushOutcome.err (some 500) ("boom")) sampleSub samplePayload
      [sampleSub]).1 (some 500) ("boom") rfl (by decide) rfl
    exact h.2.2 (by decide)

/-! ## Dispatcher accounting lemmas -/

theorem sendToUser_success_bool (cfg : Bool) (push : String → PushOutcome)
    (sub : UserSubscription) (payload : NotificationPayload) (store : Store) :
    (sendToUser cfg push sub payload store).1.success =
      (cfg && isNotificationEnabled sub.preferences payload.typ &&
        decide (push sub.userAddress = PushOutcome.ok)) := by
  cases hc : cfg
  · simp [sendToUser, hc]
  · cases he : isNotificationEnabled sub.preferences payload.typ
    · simp [sendToUser, hc, he]
    · cases hp : push sub.userAddress
      · simp [sendToUser, hc, he, hp]
      · by_cases h404 : (match hp' : push sub.userAddress with
            | PushOutcome.ok => none
            | PushOutcome.err sc _ => sc) = some 404
        all_goals simp only [sendToUser, hc, he, hp]
        all_goals simp [hp]
        all_goals split <;> simp

theorem sendFold_counts (cfg : Bool) (push : String → PushOutcome)
    (subscriptions : List UserSubscription) (payload : NotificationPayload) :
    ∀ (userAddresses : List String) (res : SendResult) (store : Store),
      ((userAddresses.foldl (sendStep cfg push subscriptions payload) (res, store)).1.sent =
        res.sent + (userAddresses.filter fun ua =>
          sentVia cfg push subscriptions payload ua).length) ∧
      ((userAddresses.foldl (sendStep cfg push subscriptions payload) (res, store)).1.failed =
        res.failed + (userAddresses.filter fun ua =>
          ¬ sentVia cfg push subscriptions payload ua).length) := by
  intro userAddresses
  induction userAddresses with
  | nil => intro res store; simp
  | cons ua rest ih =>
    intro res store
    simp only [List.foldl_cons, List.filter_cons]
    cases hf : subscriptions.find? (fun s => lowercase s.userAddress = lowercase ua) with
    | none =>
      have hsv : sentVia cfg push subscriptions payload ua = false := by
        simp [sentVia, hf]
      have hstep : sendStep cfg push subscriptions payload (res, store) ua =
          ({ res with failed := res.failed + 1 }, store) := by
        simp [sendStep, hf]
      rw [hstep, hsv]
      have h := ih { res with failed := res.failed + 1 } store
      simp only [h.1, h.2]
      constructor
      · simp
      · simp
        omega
    | some s =>
      have hsv : sentVia cfg push subscriptions payload ua =
          (cfg && isNotificationEnabled s.preferences payload.typ &&
            decide (push s.userAddress = PushOutcome.ok)) := by
        simp [sentVia, hf]
      cases hsucc : (sendToUser cfg push s payload store).1.success with
      | true =>
        have hsv' : sentVia cfg push subscriptions payload ua = true := by
          rw [hsv, ← sendToUser_success_bool cfg push s payload store, hsucc]
        have hstep : sendStep cfg push subscriptions payload (res, store) ua =
            ({ res with sent := res.sent + 1 }, (sendToUser cfg push s payload store).2) := by
          simp [sendStep, hf, hsucc]
        rw [hstep, hsv']
        have h := ih { res with sent := res.sent + 1 } (sendToUser cfg push s payload store).2
        simp only [h.1, h.2]
        constructor
        · simp
          omega
        · simp
      | false =>
        have hsv' : sentVia cfg push subscriptions payload ua = false := by
          rw [hsv, ← sendToUser_success_bool cfg push s payload store, hsucc]
        have hstep : sendStep cfg push subscriptions payload (res, store) ua =
            ({ res with
                failed := res.failed + 1,
                errors := res.errors ++
                  (match (sendToUser cfg push s payload store).1.error with
                   | some e => [s.userAddress ++ (": ") ++ e]
                   | none => []) }, (sendToUser cfg push s payload store).2) := by
          simp [sendStep, hf, hsucc]
        rw [hstep, hsv']
        have h := ih { res with
            failed := res.failed + 1,
            errors := res.errors ++
              (match (sendToUser cfg push s payload store).1.error with
               | some e => [s.userAddress ++ (": ") ++ e]
               | none => []) } (sendToUser cfg push s payload store).2
        simp only [h.1, h.2]
        constructor
        · simp
        · simp
          omega

/-- C5: per-recipient preference filtering of `sendNotification`.  The
sent/failed counters are exactly the counts of recipients satisfying /
violating `recipientSent`; a recipient whose stored subscription has
`pushEnabled = false` is never counted as sent (the `getMany` query already
filters it out, so the recipient falls into the no-subscription failure
path) regardless of per-type flags; a recipient whose per-type flag is
explicitly `false` is never counted as sent; an unset per-type flag leaves
the recipient eligible (fail-open); and the type → preference-key table is
total over the notification-type enumeration. -/
theorem sendNotification_preference_filtering :
    (∀ (cfg : Bool) (push : String → PushOutcome) (store : Store)
        (userAddresses : List String) (payload : NotificationPayload),
      (sendNotification cfg push userAddresses payload store).1.sent =
        (userAddresses.filter fun ua =>
          recipientSent cfg push store userAddresses payload ua).length ∧
      (sendNotification cfg push userAddresses payload store).1.failed =
        (userAddresses.filter fun ua =>
          ¬ recipientSent cfg push store userAddresses payload ua).length) ∧
    (∀ (cfg : Bool) (push : String → PushOutcome) (store : Store)
        (userAddresses : List String) (payload : NotificationPayload) (ua : String),
      (∀ s ∈ store, lowercase s.userAddress = lowercase ua →
        s.preferences.pushEnabled = some false) →
      recipientSent cfg push store userAddresses payload ua = false) ∧
    (∀ (cfg : Bool) (push : String → PushOutcome) (store : Store)
        (userAddresses : List String) (payload : NotificationPayload) (ua : String)
        (s : UserSubscription) (key : String),
      (SubscriptionStore.getMany store userAddresses).find?
          (fun s => lowercase s.userAddress = lowercase ua) = some s →
      NOTIFICATION_PREFERENCE_KEYS.lookup payload.typ = some key →
      s.preferences.flags.lookup key = some false →
      recipientSent cfg push store userAddresses payload ua = false) ∧
    (∀ (s : UserSubscription) (payload : NotificationPayload) (key : String),
      s.preferences.pushEnabled ≠ some false →
      NOTIFICATION_PREFERENCE_KEYS.lookup payload.typ = some key →
      s.preferences.flags.lookup key = none →
      isNotificationEnabled s.preferences payload.typ = true) ∧
    (∀ t ∈ notificationTypes, (NOTIFICATION_PREFERENCE_KEYS.lookup t).isSome) := by
  refine ⟨?_, ?_, ?_, ?_, ?_⟩
  · intro cfg push store userAddresses payload
    have h := sendFold_counts cfg push (SubscriptionStore.getMany store userAddresses)
      payload userAddresses ⟨0, 0, []⟩ store
    exact ⟨by simpa [sendNotification, recipientSent] using h.1,
      by simpa [sendNotification, recipientSent] using h.2⟩
  · intro cfg push store userAddresses payload ua hall
    have hnone : (SubscriptionStore.getMany store userAddresses).find?
        (fun s => lowercase s.userAddress = lowercase ua) = none := by
      rw [List.find?_eq_none]
      intro s hs hmatch
      simp only [decide_eq_true_eq] at hmatch
      by_cases hempty : userAddresses = []
      · simp [SubscriptionStore.getMany, hempty] at hs
      · simp only [SubscriptionStore.getMany, hempty, if_false] at hs
        have := (List.mem_filter.mp hs).2
        simp only [decide_eq_true_eq] at this
        exact absurd (hall s (List.mem_filter.mp hs).1 hmatch) this.2
    simp [recipientSent, sentVia, hnone]
  · intro cfg push store userAddresses payload ua s key hf hkey hflag
    have hen : isNotificationEnabled s.preferences payload.typ = false := by
      by_cases hp : s.preferences.pushEnabled = some false
      · simp [isNotificationEnabled, hp]
      · simp [isNotificationEnabled, hp, hkey, hflag]
    simp [recipientSent, sentVia, hf, hen]
  · intro s payload key hp hkey hflag
    simp [isNotificationEnabled, hp, hkey, hflag]
  · intro t ht
    fin_cases ht <;> decide

/-- A three-subscriber fixture store: `pushEnabled=false`, per-type flag
explicitly `false`, and all-unset. -/
def threePrefStore : Store :=
  [{ userAddress := ("0xa"), endpoint := ("e1"), preferences := { pushEnabled := some false, flags := [] } },
   { userAddress := ("0xb"), endpoint := ("e2"), preferences := { pushEnabled := none, flags := [(("paymentReceived"), false)] } },
   { userAddress := ("0xc"), endpoint := ("e3"), preferences := { pushEnabled := none, flags := [] } }]

/-- Witness for C5: over `threePrefStore` and a working transport, a
`payment_received` dispatch to all three users yields exactly one sent and
two failed. -/
theorem sendNotification_preference_filtering_witness :
    (sendNotification true (fun _ => PushOutcome.ok) [("0xa"), ("0xb"), ("0xc")]
        samplePayload threePrefStore).1.sent = 1 ∧
    (sendNotification true (fun _ => PushOutcome.ok) [("0xa"), ("0xb"), ("0xc")]
        samplePayload threePrefStore).1.failed = 2 := by
  have h := sendNotification_preference_filtering.1 true (fun _ => PushOutcome.ok)
    threePrefStore [("0xa"), ("0xb"), ("0xc")] samplePayload
  exact ⟨by rw [h.1]; decide, by rw [h.2]; decide⟩

/-! ## Recipient-resolver lemmas -/

theorem mem_addUnique {l : List String} {s x : String} :
    x ∈ addUnique l s ↔ x ∈ l ∨ x = s := by
  by_cases h : s ∈ l
  · simp only [addUnique, h, if_true]
    exact ⟨Or.inl, fun hx => hx.elim id (fun he => he ▸ h)⟩
  · simp [addUnique, h]

theorem nodup_addUnique {l : List String} {s : String} (h : l.Nodup) :
    (addUnique l s).Nodup := by
  by_cases hs : s ∈ l
  · simpa [addUnique, hs] using h
  · simp [addUnique, hs, List.nodup_append, h]

theorem mem_foldl_addUnique :
    ∀ (ids init : List String) (x : String),
      x ∈ ids.foldl addUnique init ↔ x ∈ init ∨ x ∈ ids := by
  intro ids
  induction ids with
  | nil => intro init x; simp
  | cons i rest ih =>
    intro init x
    simp only [List.foldl_cons, ih, mem_addUnique, List.mem_cons]
    tauto

theorem nodup_foldl_addUnique :
    ∀ (ids init : List String), init.Nodup → (ids.foldl addUnique init).Nodup := by
  intro ids
  induction ids with
  | nil => intro init h; simpa using h
  | cons i rest ih =>
    intro init h
    exact ih (addUnique init i) (nodup_addUnique h)

/-- The deduplicated lowercased joined-participant list underlying
`getCircleMembers`, before the creator is added. -/
def baseMembers (r : MembersResponse) : List String :=
  (r.joined.filterMap fun j =>
    match j with
    | some uid => if uid = ("") then none else some (lowercase uid)
    | none => none).foldl addUnique []

theorem getCircleMembers_some_eq (r : MembersResponse) :
    getCircleMembers (some r) =
      (match r.creator with
       | some c => if c = ("") then baseMembers r else addUnique (baseMembers r) (lowercase c)
       | none => baseMembers r) := rfl

theorem getCircleMembers_creator_none (r : MembersResponse) (hc : r.creator = none) :
    getCircleMembers (some r) = baseMembers r := by
  rw [getCircleMembers_some_eq, hc]

theorem getCircleMembers_creator_some (r : MembersResponse) (c : String)
    (hc : r.creator = some c) :
    getCircleMembers (some r) =
      if c = ("") then baseMembers r else addUnique (baseMembers r) (lowercase c) := by
  rw [getCircleMembers_some_eq, hc]

/-- C6: `getCircleMembers` returns a duplicate-free list of lowercased
addresses whose underlying set is exactly the union of the (truthy) joined
participants with the (truthy) circle creator — in particular the creator is
always a member; and the `processCircleJoinedEvents` self-exclusion filter
removes the acting user from every dispatched recipient list under
case-insensitive comparison. -/
theorem getCircleMembers_spec :
    (∀ (r : MembersResponse),
      (getCircleMembers (some r)).Nodup ∧
      (∀ x, x ∈ getCircleMembers (some r) ↔
        (∃ u, some u ∈ r.joined ∧ u ≠ ("") ∧ x = lowercase u) ∨
        (∃ c, r.creator = some c ∧ c ≠ ("") ∧ x = lowercase c))) ∧
    (∀ (r : MembersResponse) (c : String),
      r.creator = some c → c ≠ ("") → lowercase c ∈ getCircleMembers (some r)) ∧
    (∀ (env : FanoutEnv) (event : CircleJoinedEvent) (store : Store)
        (d : FanoutDispatch) (m : String) (u : UserData),
      event.user = some u →
      d ∈ (processCircleJoinedEvent env event store).1 →
      m ∈ d.recipients → lowercase m ≠ lowercase u.id) := by
  have hbase : ∀ (r : MembersResponse) (y : String),
      y ∈ baseMembers r ↔ (∃ u, some u ∈ r.joined ∧ u ≠ ("") ∧ y = lowercase u) := by
    intro r y
    rw [baseMembers, mem_foldl_addUnique, List.mem_filterMap]
    simp only [List.not_mem_nil, false_or]
    constructor
    · rintro ⟨j, hj, hfy⟩
      cases j with
      | none => simp at hfy
      | some uid =>
        by_cases he : uid = ("")
        · simp [he] at hfy
        · simp only [he, if_false] at hfy
          exact ⟨uid, hj, he, (Option.some_inj.mp hfy).symm⟩
    · rintro ⟨u, hu, hne, hy⟩
      exact ⟨some u, hu, by simp [hne, hy]⟩
  have hmem : ∀ (r : MembersResponse) (x : String),
      x ∈ getCircleMembers (some r) ↔
        (∃ u, some u ∈ r.joined ∧ u ≠ ("") ∧ x = lowercase u) ∨
        (∃ c, r.creator = some c ∧ c ≠ ("") ∧ x = lowercase c) := by
    intro r x
    cases hc : r.creator with
    | none =>
      rw [getCircleMembers_creator_none r hc, hbase]
      constructor
      · exact Or.inl
      · rintro (h | ⟨c, hcc, _⟩)
        · exact h
        · simp at hcc
    | some c =>
      by_cases he : c = ("")
      · rw [getCircleMembers_creator_some r c hc, if_pos he, hbase]
        constructor
        · exact Or.inl
        · rintro (h | ⟨c', hcc, hne, _⟩)
          · exact h
          · rw [Option.some_inj] at hcc
            subst hcc
            exact absurd he hne
      · rw [getCircleMembers_creator_some r c hc, if_neg he, mem_addUnique, hbase]
        constructor
        · rintro (h | h)
          · exact Or.inl h
          · exact Or.inr ⟨c, rfl, he, h⟩
        · rintro (h | ⟨c', hcc, _, hy⟩)
          · exact Or.inl h
          · rw [Option.some_inj] at hcc
            subst hcc
            exact Or.inr hy
  refine ⟨fun r => ⟨?_, hmem r⟩, ?_, ?_⟩
  · have hb : (baseMembers r).Nodup := nodup_foldl_addUnique _ [] List.nodup_nil
    cases hc : r.creator with
    | none => rw [getCircleMembers_creator_none r hc]; exact hb
    | some c =>
      by_cases he : c = ("")
      · rw [getCircleMembers_creator_some r c hc, if_pos he]; exact hb
      · rw [getCircleMembers_creator_some r c hc, if_neg he]; exact nodup_addUnique hb
  · intro r c hc hne
    exact (hmem r (lowercase c)).mpr (Or.inr ⟨c, hc, hne, rfl⟩)
  · intro env event store d m u hu hd hm
    unfold processCircleJoinedEvent at hd
    rw [hu] at hd
    by_cases he : u.id = ("")
    · simp [he] at hd
    · simp only [he, if_false] at hd
      set members := getCircleMembers (env.membersResp event.circleId) with hmembers
      by_cases hempty : members.filter (fun m => lowercase m ≠ lowercase u.id) = []
      · rw [if_pos hempty] at hd
        simp at hd
      · rw [if_neg hempty] at hd
        simp only [List.mem_singleton] at hd
        have hmm : m ∈ members.filter (fun m => lowercase m ≠ lowercase u.id) := by
          rw [hd] at hm
          exact hm
        have := (List.mem_filter.mp hmm).2
        simpa using this

/-- A sample `GetCircleMembers` response: two joined users and a creator, all
in mixed case. -/
def sampleMembersResp : MembersResponse :=
  { joined := [some ("0xA"), some ("0xB")], creator := some ("0xC") }

/-- Witness for C6: the creator of the sample circle is in the resolved
member list, lowercased. -/
theorem getCircleMembers_spec_witness :
    ("0xc") ∈ getCircleMembers (some sampleMembersResp) := by
  have h := getCircleMembers_spec.2.1 sampleMembersResp ("0xC") rfl (by decide)
  exact (show lowercase ("0xC") = ("0xc") by decide) ▸ h

/-! ## String-key helpers -/

theorem string_data_append (a b : String) : (a ++ b).data = a.data ++ b.data := rfl

theorem string_ext {a b : String} (h : a.data = b.data) : a = b := by
  cases a
  cases b
  exact congrArg String.mk h

theorem string_append_assoc (a b c : String) : (a ++ b) ++ c = a ++ (b ++ c) :=
  string_ext (by simp [string_data_append, List.append_assoc])

theorem string_append_right_ne (a : String) {b c : String} (h : b ≠ c) :
    a ++ b ≠ a ++ c := by
  intro he
  apply h
  have hd : a.data ++ b.data = a.data ++ c.data := by
    have := congrArg String.data he
    simpa [string_data_append] using this
  exact string_ext (List.append_cancel_left hd)

theorem string_append_ne_of_head {p q : String} (x y : String) (i : Nat) (c₁ c₂ : Char)
    (h₁ : p.data.get? i = some c₁) (h₂ : q.data.get? i = some c₂) (hne : c₁ ≠ c₂) :
    p ++ x ≠ q ++ y := by
  intro he
  have hd : p.data ++ x.data = q.data ++ y.data := by
    have := congrArg String.data he
    simpa [string_data_append] using this
  have hi₁ : i < p.data.length := (List.get?_eq_some.mp h₁).1
  have hi₂ : i < q.data.length := (List.get?_eq_some.mp h₂).1
  have : (p.data ++ x.data).get? i = (q.data ++ y.data).get? i := by rw [hd]
  rw [List.get?_append hi₁, List.get?_append hi₂, h₁, h₂] at this
  exact hne (Option.some_inj.mp this)

/-! ## Scheduler run lemmas -/

theorem mem_addKey {keys : List String} {k x : String} :
    x ∈ addKey keys k ↔ x ∈ keys ∨ x = k := by
  by_cases h : k ∈ keys
  · simp only [addKey, h, if_true]
    exact ⟨Or.inl, fun hx => hx.elim id (fun he => he ▸ h)⟩
  · simp [addKey, h, or_comm]

theorem runConds_keys_mono (cfg : Bool) (push : String → PushOutcome) :
    ∀ (insts : List CondInst) (keys : List String) (store : Store) (k : String),
      k ∈ keys → k ∈ (runConds cfg push keys store insts).1 := by
  intro insts
  induction insts with
  | nil => intro keys store k hk; simpa [runConds] using hk
  | cons inst rest ih =>
    intro keys store k hk
    rw [runConds]
    by_cases hg : inst.cond ∧ inst.key ∉ keys
    · rw [if_pos hg]
      exact ih _ _ k (mem_addKey.mpr (Or.inl hk))
    · rw [if_neg hg]
      exact ih _ _ k hk

theorem countKey_nil (k : String) : countKey [] k = 0 := rfl

theorem countKey_cons (d : SchedDispatch) (tr : List SchedDispatch) (k : String) :
    countKey (d :: tr) k = (if d.key = k then 1 else 0) + countKey tr k := by
  simp only [countKey, List.filter_cons]
  by_cases h : d.key = k
  · simp [h, Nat.add_comm]
  · simp [h]

theorem runConds_count_zero (cfg : Bool) (push : String → PushOutcome) :
    ∀ (insts : List CondInst) (keys : List String) (store : Store) (k : String),
      k ∈ keys → countKey (runConds cfg push keys store insts).2.2 k = 0 := by
  intro insts
  induction insts with
  | nil => intro keys store k _; simp [runConds, countKey]
  | cons inst rest ih =>
    intro keys store k hk
    rw [runConds]
    by_cases hg : inst.cond ∧ inst.key ∉ keys
    · rw [if_pos hg]
      have hne : inst.key ≠ k := fun he => hg.2 (he ▸ hk)
      rw [countKey_cons, if_neg hne,
        ih (addKey keys inst.key) _ k (mem_addKey.mpr (Or.inl hk))]
    · rw [if_neg hg]
      exact ih keys store k hk

theorem runConds_count_le_one (cfg : Bool) (push : String → PushOutcome) :
    ∀ (insts : List CondInst) (keys : List String) (store : Store) (k : String),
      countKey (runConds cfg push keys store insts).2.2 k ≤ 1 := by
  intro insts
  induction insts with
  | nil => intro keys store k; simp [runConds, countKey]
  | cons inst rest ih =>
    intro keys store k
    rw [runConds]
    by_cases hg : inst.cond ∧ inst.key ∉ keys
    · rw [if_pos hg]
      rw [countKey_cons]
      by_cases hk : inst.key = k
      · rw [if_pos hk]
        have h0 := runConds_count_zero cfg push rest (addKey keys inst.key)
          (sendNotification cfg push inst.recipients inst.payload store).2 k
          (mem_addKey.mpr (Or.inr hk.symm))
        omega
      · rw [if_neg hk]
        have := ih (addKey keys inst.key)
          (sendNotification cfg push inst.recipients inst.payload store).2 k
        omega
    · rw [if_neg hg]
      exact ih keys store k

theorem runConds_dispatched_key_registered (cfg : Bool) (push : String → PushOutcome) :
    ∀ (insts : List CondInst) (keys : List String) (store : Store) (d : SchedDispatch),
      d ∈ (runConds cfg push keys store insts).2.2 →
      d.key ∈ (runConds cfg push keys store insts).1 ∧ d.key ∉ keys := by
  intro insts
  induction insts with
  | nil => intro keys store d hd; simp [runConds] at hd
  | cons inst rest ih =>
    intro keys store d hd
    rw [runConds] at hd ⊢
    by_cases hg : inst.cond ∧ inst.key ∉ keys
    · rw [if_pos hg] at hd ⊢
      rcases List.mem_cons.mp hd with he | ht
      · subst he
        refine ⟨?_, hg.2⟩
        exact runConds_keys_mono cfg push rest _ _ inst.key (mem_addKey.mpr (Or.inr rfl))
      · have := ih (addKey keys inst.key)
          (sendNotification cfg push inst.recipients inst.payload store).2 d ht
        exact ⟨this.1, fun hk => this.2 (mem_addKey.mpr (Or.inl hk))⟩
    · rw [if_neg hg] at hd ⊢
      exact ih keys store d hd

theorem runConds_avoids_absent_key (cfg : Bool) (push : String → PushOutcome) :
    ∀ (insts : List CondInst) (keys : List String) (store : Store) (k : String),
      k ∉ keys → (∀ j ∈ insts, j.key ≠ k) →
      k ∉ (runConds cfg push keys store insts).1 ∧
        countKey (runConds cfg push keys store insts).2.2 k = 0 := by
  intro insts
  induction insts with
  | nil => intro keys store k hk _; simpa [runConds, countKey] using hk
  | cons inst rest ih =>
    intro keys store k hk hall
    rw [runConds]
    have hne : inst.key ≠ k := hall inst (List.mem_cons_self inst rest)
    by_cases hg : inst.cond ∧ inst.key ∉ keys
    · rw [if_pos hg]
      have hk' : k ∉ addKey keys inst.key := fun hmem =>
        (mem_addKey.mp hmem).elim hk (fun he => hne he.symm)
      have hrec := ih (addKey keys inst.key)
        (sendNotification cfg push inst.recipients inst.payload store).2 k hk'
        (fun j hj => hall j (List.mem_cons_of_mem inst hj))
      refine ⟨hrec.1, ?_⟩
      rw [countKey_cons, if_neg hne, hrec.2]
    · rw [if_neg hg]
      exact ih keys store k hk (fun j hj => hall j (List.mem_cons_of_mem inst hj))

theorem runConds_count_one (cfg : Bool) (push : String → PushOutcome) :
    ∀ (pre : List CondInst) (inst : CondInst) (post : List CondInst)
      (keys : List String) (store : Store) (k : String),
      inst.key = k → inst.cond = true → k ∉ keys → (∀ j ∈ pre, j.key ≠ k) →
      countKey (runConds cfg push keys store (pre ++ inst :: post)).2.2 k = 1 := by
  intro pre
  induction pre with
  | nil =>
    intro inst post keys store k hkey hcond hk _
    simp only [List.nil_append]
    rw [runConds]
    have hg : inst.cond ∧ inst.key ∉ keys := ⟨hcond, hkey ▸ hk⟩
    rw [if_pos hg]
    rw [countKey_cons, if_pos hkey]
    have h0 := runConds_count_zero cfg push post (addKey keys inst.key)
      (sendNotification cfg push inst.recipients inst.payload store).2 k
      (mem_addKey.mpr (Or.inr hkey.symm))
    omega
  | cons j pre' ih =>
    intro inst post keys store k hkey hcond hk hall
    have hjne : j.key ≠ k := hall j (List.mem_cons_self j pre')
    simp only [List.cons_append]
    rw [runConds]
    by_cases hg : j.cond ∧ j.key ∉ keys
    · rw [if_pos hg]
      have hk' : k ∉ addKey keys j.key := fun hmem =>
        (mem_addKey.mp hmem).elim hk (fun he => hjne he.symm)
      rw [countKey_cons, if_neg hjne]
      have := ih inst post (addKey keys j.key)
        (sendNotification cfg push j.recipients j.payload store).2 k hkey hcond hk'
        (fun x hx => hall x (List.mem_cons_of_mem j hx))
      omega
    · rw [if_neg hg]
      exact ih inst post keys store k hkey hcond hk
        (fun x hx => hall x (List.mem_cons_of_mem j hx))

/-- A sample active goal: 52% progress (milestone band 50), deadline far away. -/
def goal0 : PersonalGoal :=
  { id := ("g1"), goalId := ("1"), goalName := ("My Goal"), goalAmount := 100,
    currentAmount := 52, deadline := 1000000, userId := ("alice") }

/-- C4 counterexample: with an empty subscription store the milestone dispatch
for `goal0` reports zero sent and one failed — a failed dispatch — yet its
dedup key is inserted into the registry, and the identical next tick performs
no dispatch for that key (the condition is NOT retried). -/
theorem checkGoalDeadlines_inserts_key_after_failed_dispatch :
    ((checkGoalDeadlines true (fun _ => PushOutcome.ok) [goal0] 0 [] []).2.2.map
        (fun d => (d.key, d.result.sent, d.result.failed))) =
      [(("goal_milestone_g1_50"), 0, 1)] ∧
    ("goal_milestone_g1_50") ∈
      (checkGoalDeadlines true (fun _ => PushOutcome.ok) [goal0] 0 [] []).1 ∧
    countKey (checkGoalDeadlines true (fun _ => PushOutcome.ok) [goal0] 0
        (checkGoalDeadlines true (fun _ => PushOutcome.ok) [goal0] 0 [] []).1
        (checkGoalDeadlines true (fun _ => PushOutcome.ok) [goal0] 0 [] []).2.1).2.2
      ("goal_milestone_g1_50") = 0 := by
  decide

/-- C4 (amended): in both deadline evaluators each condition's dedup key is
inserted immediately after the dispatch call returns and before the next
condition is evaluated — so within one run no key is ever dispatched twice,
every dispatched key ends up registered and was not registered before the
run, and previously registered keys stay registered.  The insertion does not
depend on the dispatch result (the dispatcher never throws), so a dispatch
whose recipients all failed still registers its key. -/
theorem scheduler_dedup_insertion :
    (∀ (cfg : Bool) (push : String → PushOutcome) (goals : List PersonalGoal)
        (now : Int) (keys : List String) (store : Store),
      (∀ d ∈ (checkGoalDeadlines cfg push goals now keys store).2.2,
        d.key ∈ (checkGoalDeadlines cfg push goals now keys store).1 ∧ d.key ∉ keys) ∧
      (∀ k, countKey (checkGoalDeadlines cfg push goals now keys store).2.2 k ≤ 1) ∧
      (∀ k ∈ keys, k ∈ (checkGoalDeadlines cfg push goals now keys store).1)) ∧
    (∀ (cfg : Bool) (push : String → PushOutcome)
        (circlesData : Option (List SubgraphCircle × CircleBatchData)) (now : Int)
        (keys : List String) (store : Store),
      (∀ d ∈ (checkCircleDeadlines cfg push circlesData now keys store).2.2,
        d.key ∈ (checkCircleDeadlines cfg push circlesData now keys store).1 ∧
          d.key ∉ keys) ∧
      (∀ k, countKey (checkCircleDeadlines cfg push circlesData now keys store).2.2 k ≤ 1) ∧
      (∀ k ∈ keys, k ∈ (checkCircleDeadlines cfg push circlesData now keys store).1)) := by
  constructor
  · intro cfg push goals now keys store
    unfold checkGoalDeadlines
    exact ⟨fun d hd => runConds_dispatched_key_registered cfg push _ keys store d hd,
      fun k => runConds_count_le_one cfg push _ keys store k,
      fun k hk => runConds_keys_mono cfg push _ keys store k hk⟩
  · intro cfg push circlesData now keys store
    cases circlesData with
    | none =>
      refine ⟨?_, ?_, ?_⟩
      · intro d hd
        simp [checkCircleDeadlines] at hd
      · intro k
        simp [checkCircleDeadlines, countKey]
      · intro k hk
        simpa [checkCircleDeadlines] using hk
    | some data =>
      unfold checkCircleDeadlines
      exact ⟨fun d hd => runConds_dispatched_key_registered cfg push _ keys store d hd,
        fun k => runConds_count_le_one cfg push _ keys store k,
        fun k hk => runConds_keys_mono cfg push _ keys store k hk⟩

/-- The payload of the milestone dispatch for `goal0`. -/
def sampleMilestonePayload : NotificationPayload :=
  { title := ("Goal Milestone Reached! 🎯"),
    message := ("You've reached 50% of your \"My Goal\" goal!"),
    typ := ("goal_milestone"),
    priority := ("low") }

/-- The milestone dispatch `checkGoalDeadlines` performs for `goal0` over an
empty store. -/
def sampleMilestoneDispatch : SchedDispatch :=
  { key := ("goal_milestone_g1_50"), recipients := [("alice")],
    payload := sampleMilestonePayload,
    result := { sent := 0, failed := 1, errors := [] } }

/-- Witness for the amended C4: the milestone key dispatched for `goal0` is
registered after the run, and no key is dispatched more than once. -/
theorem scheduler_dedup_insertion_witness :
    sampleMilestoneDispatch.key ∈
      (checkGoalDeadlines true (fun _ => PushOutcome.ok) [goal0] 0 [] []).1 ∧
    countKey (checkGoalDeadlines true (fun _ => PushOutcome.ok) [goal0] 0 [] []).2.2
      ("goal_milestone_g1_50") ≤ 1 := by
  have h := scheduler_dedup_insertion.1 true (fun _ => PushOutcome.ok) [goal0] 0 [] []
  exact ⟨(h.1 sampleMilestoneDispatch (by decide)).1, h.2.1 ("goal_milestone_g1_50")⟩

/-! ## Milestone dedup-key disambiguation -/

theorem milestone_key_assoc (g : PersonalGoal) (m : Nat) :
    ("goal_milestone_") ++ g.id ++ ("_") ++ natToString m =
      ("goal_milestone_") ++ (g.id ++ (("_") ++ natToString m)) := by
  rw [string_append_assoc, string_append_assoc]

theorem key2days_ne_milestone (g : PersonalGoal) (m : Nat) :
    ("goal_2days_") ++ g.id ≠ ("goal_milestone_") ++ g.id ++ ("_") ++ natToString m := by
  rw [milestone_key_assoc]
  exact string_append_ne_of_head _ _ 5 ('2') ('m') (by decide) (by decide) (by decide)

theorem key1day_ne_milestone (g : PersonalGoal) (m : Nat) :
    ("goal_1day_") ++ g.id ≠ ("goal_milestone_") ++ g.id ++ ("_") ++ natToString m := by
  rw [milestone_key_assoc]
  exact string_append_ne_of_head _ _ 5 ('1') ('m') (by decide) (by decide) (by decide)

theorem keyCompleted_ne_milestone (g : PersonalGoal) (m : Nat) :
    ("goal_completed_") ++ g.id ≠ ("goal_milestone_") ++ g.id ++ ("_") ++ natToString m := by
  rw [milestone_key_assoc]
  exact string_append_ne_of_head _ _ 5 ('c') ('m') (by decide) (by decide) (by decide)

theorem milestone_key_ne_milestone (g : PersonalGoal) {m m' : Nat}
    (h : natToString m ≠ natToString m') :
    ("goal_milestone_") ++ g.id ++ ("_") ++ natToString m ≠
      ("goal_milestone_") ++ g.id ++ ("_") ++ natToString m' :=
  string_append_right_ne _ h

theorem exists_dispatch_of_countKey_pos {tr : List SchedDispatch} {k : String}
    (h : 0 < countKey tr k) : ∃ d ∈ tr, d.key = k := by
  unfold countKey at h
  rw [List.length_pos] at h
  obtain ⟨d, hd⟩ := List.exists_mem_of_ne_nil _ h
  have := List.mem_filter.mp hd
  exact ⟨d, this.1, by simpa using this.2⟩

/-- C8: for an active goal whose progress lies in the milestone band
`[m, m+5)` for `m ∈ {25,50,75}`, one scheduler tick dispatches the milestone
notification exactly once and registers its dedup key; any further tick in
the same epoch (the key being registered) dispatches it zero times and keeps
the key registered; and after the weekly wholesale clear
(`cleanupSentNotifications`) a tick fires it exactly once more. -/
theorem goal_milestone_once_per_epoch :
    ∀ (cfg : Bool) (push : String → PushOutcome) (g : PersonalGoal) (now : Int)
      (keys : List String) (store : Store) (m : Nat),
      (m = 25 ∨ m = 50 ∨ m = 75) →
      m ≤ calculateProgress g.currentAmount g.goalAmount →
      calculateProgress g.currentAmount g.goalAmount < m + 5 →
      ((("goal_milestone_") ++ g.id ++ ("_") ++ natToString m) ∉ keys →
        countKey (checkGoalDeadlines cfg push [g] now keys store).2.2
          (("goal_milestone_") ++ g.id ++ ("_") ++ natToString m) = 1 ∧
        (("goal_milestone_") ++ g.id ++ ("_") ++ natToString m) ∈
          (checkGoalDeadlines cfg push [g] now keys store).1) ∧
      ((("goal_milestone_") ++ g.id ++ ("_") ++ natToString m) ∈ keys →
        countKey (checkGoalDeadlines cfg push [g] now keys store).2.2
          (("goal_milestone_") ++ g.id ++ ("_") ++ natToString m) = 0 ∧
        (("goal_milestone_") ++ g.id ++ ("_") ++ natToString m) ∈
          (checkGoalDeadlines cfg push [g] now keys store).1) ∧
      countKey (checkGoalDeadlines cfg push [g] now
          (cleanupSentNotifications keys) store).2.2
        (("goal_milestone_") ++ g.id ++ ("_") ++ natToString m) = 1 := by
  intro cfg push g now keys store m hm hge hlt
  have hflat : ([g].flatMap fun x => goalConditions x now) = goalConditions g now := by
    simp
  have hrun : ∀ (ks : List String) (st : Store),
      checkGoalDeadlines cfg push [g] now ks st =
        runConds cfg push ks st (goalConditions g now) := by
    intro ks st
    unfold checkGoalDeadlines
    rw [hflat]
  have hcond : (instMilestone g m).cond = true := by
    simp only [instMilestone, decide_eq_true_eq]
    exact ⟨hge, hlt⟩
  have honce : ∀ (ks : List String) (st : Store),
      (("goal_milestone_") ++ g.id ++ ("_") ++ natToString m) ∉ ks →
      countKey (checkGoalDeadlines cfg push [g] now ks st).2.2
        (("goal_milestone_") ++ g.id ++ ("_") ++ natToString m) = 1 ∧
      (("goal_milestone_") ++ g.id ++ ("_") ++ natToString m) ∈
        (checkGoalDeadlines cfg push [g] now ks st).1 := by
    intro ks st hk
    have hcnt : countKey (runConds cfg push ks st (goalConditions g now)).2.2
        (("goal_milestone_") ++ g.id ++ ("_") ++ natToString m) = 1 := by
      rcases hm with rfl | rfl | rfl
      · have hdecomp : goalConditions g now =
            [inst2days g now, inst1day g now] ++ instMilestone g 25 ::
              [instMilestone g 50, instMilestone g 75, instCompleted g] := rfl
        rw [hdecomp]
        apply runConds_count_one cfg push _ _ _ ks st _ rfl hcond hk
        intro j hj
        rcases List.mem_cons.mp hj with rfl | hj
        · exact key2days_ne_milestone g 25
        · rcases List.mem_cons.mp hj with rfl | hj
          · exact key1day_ne_milestone g 25
          · simp at hj
      · have hdecomp : goalConditions g now =
            [inst2days g now, inst1day g now, instMilestone g 25] ++ instMilestone g 50 ::
              [instMilestone g 75, instCompleted g] := rfl
        rw [hdecomp]
        apply runConds_count_one cfg push _ _ _ ks st _ rfl hcond hk
        intro j hj
        rcases List.mem_cons.mp hj with rfl | hj
        · exact key2days_ne_milestone g 50
        · rcases List.mem_cons.mp hj with rfl | hj
          · exact key1day_ne_milestone g 50
          · rcases List.mem_cons.mp hj with rfl | hj
            · exact milestone_key_ne_milestone g (by decide)
            · simp at hj
      · have hdecomp : goalConditions g now =
            [inst2days g now, inst1day g now, instMilestone g 25, instMilestone g 50] ++
              instMilestone g 75 :: [instCompleted g] := rfl
        rw [hdecomp]
        apply runConds_count_one cfg push _ _ _ ks st _ rfl hcond hk
        intro j hj
        rcases List.mem_cons.mp hj with rfl | hj
        · exact key2days_ne_milestone g 75
        · rcases List.mem_cons.mp hj with rfl | hj
          · exact key1day_ne_milestone g 75
          · rcases List.mem_cons.mp hj with rfl | hj
            · exact milestone_key_ne_milestone g (by decide)
            · rcases List.mem_cons.mp hj with rfl | hj
              · exact milestone_key_ne_milestone g (by decide)
              · simp at hj
    have hmem : (("goal_milestone_") ++ g.id ++ ("_") ++ natToString m) ∈
        (runConds cfg push ks st (goalConditions g now)).1 := by
      obtain ⟨d, hd, hdk⟩ := exists_dispatch_of_countKey_pos (by omega : 0 <
        countKey (runConds cfg push ks st (goalConditions g now)).2.2
          (("goal_milestone_") ++ g.id ++ ("_") ++ natToString m))
      have hreg := runConds_dispatched_key_registered cfg push (goalConditions g now)
        ks st d hd
      exact hdk ▸ hreg.1
    rw [hrun]
    exact ⟨hcnt, hmem⟩
  refine ⟨fun hk => honce keys store hk, fun hk => ?_, ?_⟩
  · rw [hrun]
    exact ⟨runConds_count_zero cfg push _ keys store _ hk,
      runConds_keys_mono cfg push _ keys store _ hk⟩
  · exact (honce (cleanupSentNotifications keys) store (by
      simp [cleanupSentNotifications])).1

/-- Witness for C8: `goal0` sits at 52% progress; a first tick from the empty
registry dispatches the 50% milestone once and registers its key, a second
tick dispatches it zero times, and after the weekly clear a tick dispatches
it once more. -/
theorem goal_milestone_once_per_epoch_witness :
    countKey (checkGoalDeadlines true (fun _ => PushOutcome.ok) [goal0] 0 [] []).2.2
      (("goal_milestone_") ++ goal0.id ++ ("_") ++ natToString 50) = 1 ∧
    countKey (checkGoalDeadlines true (fun _ => PushOutcome.ok) [goal0] 0
        [(("goal_milestone_") ++ goal0.id ++ ("_") ++ natToString 50)] []).2.2
      (("goal_milestone_") ++ goal0.id ++ ("_") ++ natToString 50) = 0 ∧
    countKey (checkGoalDeadlines true (fun _ => PushOutcome.ok) [goal0] 0
        (cleanupSentNotifications
          [(("goal_milestone_") ++ goal0.id ++ ("_") ++ natToString 50)]) []).2.2
      (("goal_milestone_") ++ goal0.id ++ ("_") ++ natToString 50) = 1 := by
  have h := goal_milestone_once_per_epoch true (fun _ => PushOutcome.ok) goal0 0 [] [] 50
    (Or.inr (Or.inl rfl)) (by decide) (by decide)
  have h2 := goal_milestone_once_per_epoch true (fun _ => PushOutcome.ok) goal0 0
    [(("goal_milestone_") ++ goal0.id ++ ("_") ++ natToString 50)] [] 50
    (Or.inr (Or.inl rfl)) (by decide) (by decide)
  exact ⟨(h.1 (by decide)).1, (h2.2.1 (by decide)).1, h2.2.2⟩

/-- A sample on-chain transaction reference. -/
def sampleTx : TransactionData :=
  { blockNumber := ("1"), blockTimestamp := ("150"), transactionHash := ("h") }

/-- The sample acting user. -/
def sampleUserA : UserData :=
  { id := ("0xa"), username := none, fullName := none }

/-- A payout event with a malformed amount string (whose `BigInt` parse is a
processing-throw source). -/
def samplePayoutBadEvent : PayoutDistributedEvent :=
  { id := ("e1"), user := some sampleUserA, circleId := ("7"), round := ("1"),
    payoutAmount := ("x"), transaction := sampleTx }

/-- A batch containing only `samplePayoutBadEvent`. -/
def sampleBatch : EventBatch :=
  { EventBatch.empty with payoutDistributeds := [samplePayoutBadEvent] }

/-- A steady poller state at cursor 100, not in flight. -/
def steadyState100 : PollerState :=
  { lastProcessedTimestamp := 100, persisted := some 100, isPolling := false }

/-- A poll environment whose batch processing throws. -/
def throwEnv : PollEnv :=
  { clientInit := true, dbTimestamp := none, now := 500, queryFails := false,
    batch := sampleBatch, metaTimestamp := some 150, procThrows := true,
    persistThrows := false }

/-- A poll environment whose subgraph query fails (e.g. an SSL error). -/
def sslFailEnv : PollEnv :=
  { clientInit := true, dbTimestamp := none, now := 500, queryFails := true,
    batch := sampleBatch, metaTimestamp := some 150, procThrows := false,
    persistThrows := false }

/-- C1: the in-memory polling cursor never decreases across runs of
`pollAndProcess`; when batch processing throws, neither the in-memory cursor
nor the persisted cursor changes (the same window is re-fetched next run) —
i.e. the cursor moves past a fetched batch only if every event was handed to
its handler without an unhandled exception. -/
theorem pollAndProcess_cursor_invariant :
    ∀ (state : PollerState) (env : PollEnv) (retryCount : Nat),
      state.lastProcessedTimestamp ≤
        (pollAndProcess state env retryCount).1.lastProcessedTimestamp ∧
      (state.lastProcessedTimestamp ≠ 0 →
        ((queryNewEvents env state.lastProcessedTimestamp).1.nonempty = true ∧
          env.procThrows = true) →
        (pollAndProcess state env retryCount).1.lastProcessedTimestamp =
            state.lastProcessedTimestamp ∧
          (pollAndProcess state env retryCount).1.persisted = state.persisted) ∧
      (state.lastProcessedTimestamp ≠ 0 →
        (pollAndProcess state env retryCount).1.lastProcessedTimestamp ≠
          state.lastProcessedTimestamp →
        ¬ ((queryNewEvents env state.lastProcessedTimestamp).1.nonempty = true ∧
            env.procThrows = true)) ∧
      (state.lastProcessedTimestamp ≠ 0 →
        (pollAndProcess state env retryCount).1.persisted ≠ state.persisted →
        ¬ ((queryNewEvents env state.lastProcessedTimestamp).1.nonempty = true ∧
            env.procThrows = true)) := by
  intro state env retryCount
  unfold pollAndProcess
  by_cases h1 : env.clientInit = false ∨ state.isPolling
  · rw [if_pos h1]
    exact ⟨Nat.le_refl _, fun _ _ => ⟨rfl, rfl⟩, fun _ hne => absurd rfl hne,
      fun _ hne => absurd rfl hne⟩
  · rw [if_neg h1]
    by_cases h0 : state.lastProcessedTimestamp = 0
    · rw [if_pos h0]
      by_cases hdb : env.dbTimestamp.getD 0 > 0
      · rw [if_pos hdb]
        exact ⟨(by rw [h0]; exact Nat.zero_le _), fun hc _ => absurd h0 hc,
          fun hc _ => absurd h0 hc, fun hc _ => absurd h0 hc⟩
      · rw [if_neg hdb]
        by_cases hpt : env.persistThrows
        · rw [if_pos hpt]
          exact ⟨(by rw [h0]; exact Nat.zero_le _), fun hc _ => absurd h0 hc,
            fun hc _ => absurd h0 hc, fun hc _ => absurd h0 hc⟩
        · simp only [hpt, if_false]
          exact ⟨(by rw [h0]; exact Nat.zero_le _), fun hc _ => absurd h0 hc,
            fun hc _ => absurd h0 hc, fun hc _ => absurd h0 hc⟩
    · rw [if_neg h0]
      by_cases hthrow : ((queryNewEvents env state.lastProcessedTimestamp).1.nonempty :
          Prop) ∧ env.procThrows
      · rw [if_pos hthrow]
        exact ⟨Nat.le_refl _, fun _ _ => ⟨rfl, rfl⟩, fun _ hne => absurd rfl hne,
          fun _ hne => absurd rfl hne⟩
      · rw [if_neg hthrow]
        by_cases hlt : (queryNewEvents env state.lastProcessedTimestamp).2 >
            state.lastProcessedTimestamp
        · rw [if_pos hlt]
          by_cases hpt : env.persistThrows
          · rw [if_pos hpt]
            exact ⟨Nat.le_of_lt hlt, fun _ hth => absurd hth hthrow,
              fun _ _ => hthrow, fun _ _ => hthrow⟩
          · simp only [hpt, if_false]
            exact ⟨Nat.le_of_lt hlt, fun _ hth => absurd hth hthrow,
              fun _ _ => hthrow, fun _ _ => hthrow⟩
        · rw [if_neg hlt]
          exact ⟨Nat.le_refl _, fun _ hth => absurd hth hthrow,
            fun _ hne => absurd rfl hne, fun _ hne => absurd rfl hne⟩

/-- Witness for C1: a steady-state run whose batch processing throws leaves
both the in-memory and the persisted cursor unchanged. -/
theorem pollAndProcess_cursor_invariant_witness :
    (pollAndProcess steadyState100 throwEnv 0).1.lastProcessedTimestamp = 100 ∧
    (pollAndProcess steadyState100 throwEnv 0).1.persisted = some 100 := by
  have h := pollAndProcess_cursor_invariant steadyState100 throwEnv 0
  exact h.2.1 (by decide) (by decide)

/-- C2 (bug evidence): a failed run that schedules a retry does NOT keep the
in-flight flag: the `finally` clause runs on the `return` inside the catch
block, so `pollAndProcess` returns with a retry scheduled (`some 1000` ms)
and `isPolling = false` — and a fixed-interval timer tick arriving during
the backoff is consequently NOT a no-op (second conjunct), contrary to the
comment "Don't reset isPolling here, let the timeout do it". -/
theorem pollAndProcess_mutex_released_during_backoff :
    pollAndProcess steadyState100 throwEnv 0 =
      ({ lastProcessedTimestamp := 100, persisted := some 100, isPolling := false },
        some 1000) ∧
    pollAndProcess (pollAndProcess steadyState100 throwEnv 0).1 throwEnv 0 ≠
      ((pollAndProcess steadyState100 throwEnv 0).1, none) := by
  decide

/-- C3 (bug evidence): when the subgraph query itself fails, `queryNewEvents`
catches the error and substitutes an empty batch with `latestTimestamp`
pinned to the cursor, so `pollAndProcess` completes the run normally —
cursor and persisted state unchanged, and NO retry scheduled (the retry
logic in the catch block is unreachable for source-query failures). -/
theorem pollAndProcess_no_retry_on_query_failure :
    pollAndProcess steadyState100 sslFailEnv 0 =
      ({ lastProcessedTimestamp := 100, persisted := some 100, isPolling := false },
        none) ∧
    queryNewEvents sslFailEnv 100 = (EventBatch.empty, 100) := by
  decide

/-- The payout recipient (user A) with a display name. -/
def sampleUserAlice : UserData :=
  { id := ("0xA"), username := some ("Alice"), fullName := none }

/-- The claim's scenario event: a payout of 2×10^18 to user A in round 3. -/
def payoutEventA : PayoutDistributedEvent :=
  { id := ("p1"), user := some sampleUserAlice, circleId := ("9"), round := ("3"),
    payoutAmount := ("2000000000000000000"), transaction := sampleTx }

/-- The circle-members response for the scenario: joined users {A, B, D}. -/
def sampleCircleResp : MembersResponse :=
  { joined := [some ("0xA"), some ("0xB"), some ("0xD")], creator := none }

/-- The scenario fan-out environment over a working transport. -/
def payoutFanoutEnv : FanoutEnv :=
  { membersResp := fun _ => some sampleCircleResp,
    circleNameOf := fun _ => some ("Circle C"),
    cfg := true, push := fun _ => PushOutcome.ok }

/-- C7 counterexample: in `src/services/subgraphService.ts` the
"Circle Payout Completed" broadcast for the scenario event is dispatched at
priority `high`, not `medium` as the claim states. -/
theorem processPayoutEvents_broadcast_not_medium :
    ((processPayoutEvents payoutFanoutEnv [payoutEventA] []).map
        (fun r => r.1.map fun d => (d.payload.title, d.payload.priority))) =
      some [(("Payment Received! 💰"), ("high")),
            (("Circle Payout Completed"), ("high"))] ∧
    ((processPayoutEvents payoutFanoutEnv [payoutEventA] []).map
        (fun r => r.1.map fun d => d.payload.priority)) ≠
      some [("high"), ("medium")] := by
  decide

/-- The payload of the recipient notification in the scenario. -/
def payoutRecipientPayload : NotificationPayload :=
  { title := ("Payment Received! 💰"),
    message := ("You received $2.00 from your circle payout (Round 3)"),
    typ := ("payment_received"), priority := ("high") }

/-- The payload of the members broadcast in the scenario. -/
def payoutBroadcastPayload : NotificationPayload :=
  { title := ("Circle Payout Completed"),
    message := ("Alice received their payout of $2.00"),
    typ := ("circle_member_payout"), priority := ("high") }

/-- C7 (amended): processing the scenario payout event for user A in a circle
with members {A,B,D} produces exactly two dispatcher calls — one high-priority
"Payment Received" notification to A alone and one "Circle Payout Completed"
notification to exactly {B,D}, at high priority in
`src/services/subgraphService.ts` (the unnamed duplicate of the service sends
this broadcast at medium priority with type `circle_payout` for the
recipient) — A is excluded from the broadcast, and the two calls are
independent: the dispatched recipients/payloads do not depend on the
transport outcomes, the configuration flag or the subscription store. -/
theorem processPayoutEvents_fanout :
    (∀ (cfg : Bool) (push : String → PushOutcome) (store : Store),
      ((processPayoutEvents
          { membersResp := fun _ => some sampleCircleResp,
            circleNameOf := fun _ => some ("Circle C"), cfg := cfg, push := push }
          [payoutEventA] store).map
        (fun r => r.1.map fun d => (d.recipients, d.payload))) =
      some [([("0xA")], payoutRecipientPayload),
            ([("0xb"), ("0xd")], payoutBroadcastPayload)]) ∧
    payoutRecipientPayload.priority = ("high") ∧
    payoutBroadcastPayload.priority = ("high") ∧
    lowercase ("0xA") ∉ [("0xb"), ("0xd")] ∧
    ((processPayoutEventAlt payoutFanoutEnv payoutEventA []).map
        (fun r => r.1.map fun d => (d.payload.typ, d.payload.priority))) =
      some [(("circle_payout"), ("high")), (("circle_member_payout"), ("medium"))] := by
  refine ⟨?_, rfl, rfl, by decide, by decide⟩
  intro cfg push store
  rfl
